import Mathlib

/-!
# Shallow embedding of the lnexun-recovery pipeline

This file embeds, in Lean, the core of the blog-reconstruction pipeline:

* the Markup Normalizer (`cleanWebArchiveUrls` of `fetch_posts.js`),
* the Post Extractor (`extractWordPressPosts` of `fetch_posts.js`),
* the Consolidator (`generatePostId`, `mergePosts` and the statistics
  block of `consolidateAllPosts` of `fetch_posts.js`),
* the Identity Resolver and Export Serializer (`getAuthorLogin`,
  `createNewUser`, `extractPostId`, `formatWordPressDate`,
  `convertPostToWxr`, `createWxrFile` of `test_single.js`).

Strings are modelled as Lean `String`s; the handful of JavaScript string
primitives the code relies on (`toLowerCase`, `trim`, `split(/\s+/)`,
`parseInt`, `substring`, truthiness of strings, regex replaces) are
implemented explicitly with JS semantics below.  Sources of run-to-run
nondeterminism (`Date.now()`, `new Date()`, `Math.random()`) are passed in
explicitly as a `RunEnv` value, and thrown exceptions are modelled with
`Option`.  External library calls (the MD5 digest from node's `crypto`)
are taken as function parameters.
-/

namespace LnexunRec

set_option maxRecDepth 100000

/-! ## JavaScript string primitives -/

/-- JS `toLowerCase` on one character, for the character set occurring in
this code base: `A`–`Z` map to `a`–`z`, `Â` maps to `â` (the only
non-ASCII cased character appearing in the author table), everything else
is fixed. -/
def jsLowerChar (c : Char) : Char :=
  if 'A' ≤ c ∧ c ≤ 'Z' then Char.ofNat (c.toNat + 32)
  else if c = 'Â' then 'â' else c

/-- JS `String.prototype.toLowerCase`. -/
def jsToLower (s : String) : String := String.mk (s.data.map jsLowerChar)

/-- JS `\s` / `trim` whitespace (the ASCII part, which is all that occurs
here). -/
def jsIsWs (c : Char) : Bool :=
  c == ' ' || c == '\t' || c == '\n' || c == '\r' ||
  c == Char.ofNat 11 || c == Char.ofNat 12

/-- Drop leading and trailing whitespace from a character list. -/
def trimList (l : List Char) : List Char :=
  ((l.dropWhile jsIsWs).reverse.dropWhile jsIsWs).reverse

/-- JS `String.prototype.trim`. -/
def jsTrim (s : String) : String := String.mk (trimList s.data)

/-- Helper for `splitWs`: accumulates the current word (reversed). -/
def splitWsAux : List Char → List Char → List (List Char)
  | [], acc => if acc.isEmpty then [] else [acc.reverse]
  | c :: cs, acc =>
    if jsIsWs c then
      if acc.isEmpty then splitWsAux cs [] else acc.reverse :: splitWsAux cs []
    else splitWsAux cs (c :: acc)

/-- JS `str.split(/\s+/)` on an already-trimmed string (splits on runs of
whitespace; with no leading separator the JS result has no empty
fragments, which is how every call site here uses it). -/
def splitWs (s : String) : List String := (splitWsAux s.data []).map String.mk

/-- JS truthiness of a possibly-absent string (`undefined`/`null` and `""`
are falsy). -/
def jsTruthy : Option String → Bool
  | none => false
  | some s => !(s == "")

/-- JS `a || b` where `a` is a possibly-absent string and `b` a string. -/
def jsOrS (o : Option String) (d : String) : String :=
  match o with
  | none => d
  | some s => if s == "" then d else s

/-- Extract a possibly-absent string, with `""` for absent (only used in
positions where the JS code has already established truthiness). -/
def jsGetD (o : Option String) : String := o.getD ""

def isDigitChar (c : Char) : Bool := '0' ≤ c && c ≤ '9'

def digitsToNat (l : List Char) : Nat :=
  l.foldl (fun n c => n * 10 + (c.toNat - 48)) 0

/-- JS `parseInt(s)` (radix 10): skip leading whitespace, optional sign,
then the maximal run of leading digits; `none` models `NaN`. -/
def parseIntJS (s : String) : Option Int :=
  let l := s.data.dropWhile jsIsWs
  match l with
  | '-' :: rest =>
    let ds := rest.takeWhile isDigitChar
    if ds.isEmpty then none else some (-(digitsToNat ds : Int))
  | '+' :: rest =>
    let ds := rest.takeWhile isDigitChar
    if ds.isEmpty then none else some (digitsToNat ds : Int)
  | _ =>
    let ds := l.takeWhile isDigitChar
    if ds.isEmpty then none else some (digitsToNat ds : Int)

/-- JS `s.substring(a, b)`: both indices are clamped to `[0, length]` and
swapped when out of order. -/
def jsSubstring (s : String) (a b : Int) : String :=
  let n : Int := s.length
  let a' := min (max a 0) n
  let b' := min (max b 0) n
  let lo := (min a' b').toNat
  let hi := (max a' b').toNat
  String.mk ((s.data.take hi).drop lo)

/-- JS `s.substring(a)` (one-argument form; a negative index is clamped
to `0`, so `s.substring(-8)` is the whole string). -/
def jsSubstringFrom (s : String) (a : Int) : String :=
  let n : Int := s.length
  String.mk (s.data.drop (min (max a 0) n).toNat)

/-- Does the second list start with the first? -/
def listStarts : List Char → List Char → Bool
  | [], _ => true
  | _ :: _, [] => false
  | p :: ps, c :: cs => p == c && listStarts ps cs

/-- JS `s.startsWith(p)`. -/
def jsStartsWith (s p : String) : Bool := listStarts p.data s.data

/-- Substring search on character lists. -/
def containsSub (needle : List Char) : List Char → Bool
  | [] => needle.isEmpty
  | c :: cs => listStarts needle (c :: cs) || containsSub needle cs

/-- JS `s.includes(sub)`. -/
def jsIncludes (s sub : String) : Bool := containsSub sub.data s.data

/-- Split at the first occurrence of a substring: returns the part before
it and the part after it. -/
def splitAtSub (needle : List Char) : List Char → Option (List Char × List Char)
  | [] => if needle.isEmpty then some ([], []) else none
  | c :: cs =>
    if listStarts needle (c :: cs) then some ([], (c :: cs).drop needle.length)
    else (splitAtSub needle cs).map (fun p => (c :: p.1, p.2))

/-- Digit renderer with fuel (the fuel is an upper bound on the digit
count, so `natToStr` always passes enough). -/
def natToStrGo : Nat → Nat → List Char
  | 0, _ => []
  | fuel + 1, m =>
    if m < 10 then [Char.ofNat (48 + m)]
    else natToStrGo fuel (m / 10) ++ [Char.ofNat (48 + m % 10)]

/-- Render a natural number in decimal (kernel-reducible). -/
def natToStr (n : Nat) : String :=
  String.mk (if n = 0 then ['0'] else natToStrGo n n)

/-- Render an integer in decimal. -/
def intToStr : Int → String
  | .ofNat n => natToStr n
  | .negSucc n => "-" ++ natToStr (n + 1)

/-- Zero-pad to two digits (JS date rendering). -/
def pad2 (n : Nat) : String := if n < 10 then "0" ++ natToStr n else natToStr n

/-- Zero-pad to four digits (JS date rendering, years in range). -/
def pad4 (n : Nat) : String :=
  if n < 10 then "000" ++ natToStr n
  else if n < 100 then "00" ++ natToStr n
  else if n < 1000 then "0" ++ natToStr n
  else natToStr n

/-! ## Markup Normalizer (`cleanWebArchiveUrls`, fetch_posts.js)

Each regex substitution of the source is modelled as a *matcher*: a
function that, given a suffix of the text, either fails or returns the
replacement together with the rest of the text after the matched span.
`gsubA` then implements JS `String.prototype.replace` with a global
regex: scan left to right, replacing non-overlapping matches. -/

/-- A matcher: at the current position either fail, or return
(replacement, rest-after-match).  All matchers below consume at least one
character when they succeed. -/
def Matcher : Type := List Char → Option (List Char × List Char)

/-- Match `https?://` (regex `https?:\/\/`), returning (consumed, rest). -/
def parseProto (l : List Char) : Option (List Char × List Char) :=
  if listStarts "https://".data l then some ("https://".data, l.drop 8)
  else if listStarts "http://".data l then some ("http://".data, l.drop 7)
  else none

/-- Match a literal, returning the rest. -/
def parseLit (lit : String) (l : List Char) : Option (List Char) :=
  if listStarts lit.data l then some (l.drop lit.data.length) else none

/-- Regex flag characters `[a-zA-Z_]`. -/
def isFlagChar (c : Char) : Bool :=
  ('a' ≤ c && c ≤ 'z') || ('A' ≤ c && c ≤ 'Z') || c == '_'

/-- Match `web.archive.org/web/` followed by exactly 14 digits, then
`[a-zA-Z_]*`, then `/`; returns the rest. -/
def matchArchiveCore (l : List Char) : Option (List Char) := do
  let r1 ← parseLit "web.archive.org/web/" l
  let ds := r1.take 14
  if ds.length == 14 && ds.all isDigitChar then
    let r2 := r1.drop 14
    let r3 := r2.dropWhile isFlagChar
    parseLit "/" r3
  else none

/-- Characters allowed by the regex class `[^"\s\)]`. -/
def allowedUrlChar (c : Char) : Bool := !(c == '"' || jsIsWs c || c == ')')

/-- Pattern 1 of `cleanWebArchiveUrls`:
`/https?:\/\/web\.archive\.org\/web\/\d{14}[a-zA-Z_]*\/(https?:\/\/[^"\s\)]+)/g`
replaced by the capture `$1`. -/
def archiveFullM : Matcher := fun l => do
  let (_, r1) ← parseProto l
  let r2 ← matchArchiveCore r1
  let (proto, r3) ← parseProto r2
  let run := r3.takeWhile allowedUrlChar
  if run.isEmpty then none
  else some (proto ++ run, r3.drop run.length)

/-- Pattern 2 of `cleanWebArchiveUrls`:
`/https?:\/\/web\.archive\.org\/web\/\d{14}[a-zA-Z_]*\/([^"\s\)]+)/g`
replaced by the capture, prefixed with `https://` when the capture does
not already start with `http://` or `https://`. -/
def archiveBasicM : Matcher := fun l => do
  let (_, r1) ← parseProto l
  let r2 ← matchArchiveCore r1
  let run := r2.takeWhile allowedUrlChar
  if run.isEmpty then none
  else
    let rep :=
      if listStarts "http://".data run || listStarts "https://".data run then run
      else "https://".data ++ run
    some (rep, r2.drop run.length)

/-- Pattern 3 of `cleanWebArchiveUrls`:
`/web\.archive\.org\/web\/\d{14}[a-zA-Z_]*\//g` deleted. -/
def archiveBareM : Matcher := fun l => do
  let r ← matchArchiveCore l
  some (([] : List Char), r)

/-- Pattern 4 of `cleanWebArchiveUrls`: `/https?:\/\/https?:\/\//g`
replaced by `https://`. -/
def doubleProtoM : Matcher := fun l => do
  let (_, r1) ← parseProto l
  let (_, r2) ← parseProto r1
  some ("https://".data, r2)

/-- `/https?:\/\/www\.lnexun\.com:80\//g` → `https://lnexun.com/`. -/
def lnexunPortM : Matcher := fun l => do
  let (_, r1) ← parseProto l
  let r2 ← parseLit "www.lnexun.com:80/" r1
  some ("https://lnexun.com/".data, r2)

/-- `/http:\/\/www\.lnexun\.com\//g` → `https://lnexun.com/`. -/
def lnexunHttpM : Matcher := fun l => do
  let r ← parseLit "http://www.lnexun.com/" l
  some ("https://lnexun.com/".data, r)

/-- `/https?:\/\/www\.lnexun\.com\//g` → `https://lnexun.com/`. -/
def lnexunM : Matcher := fun l => do
  let (_, r1) ← parseProto l
  let r2 ← parseLit "www.lnexun.com/" r1
  some ("https://lnexun.com/".data, r2)

/-- `/src="\/\//g` → `src="https://`. -/
def srcSlashM : Matcher := fun l => do
  let r ← parseLit "src=\"//" l
  some ("src=\"https://".data, r)

/-- `/href="\/\//g` → `href="https://`. -/
def hrefSlashM : Matcher := fun l => do
  let r ← parseLit "href=\"//" l
  some ("href=\"https://".data, r)

/-- JS global regex replace: scan left to right, replace non-overlapping
matches, continue after each match.  Every matcher used here consumes at
least one character on success, so fuel `l.length` always suffices. -/
def gsubA (m : Matcher) : Nat → List Char → List Char
  | 0, l => l
  | _ + 1, [] => []
  | fuel + 1, c :: cs =>
    match m (c :: cs) with
    | some (r, rest) => r ++ gsubA m fuel rest
    | none => c :: gsubA m fuel cs

/-- One global substitution pass. -/
def applyPass (m : Matcher) (l : List Char) : List Char := gsubA m l.length l

/-- The nine substitution passes of `cleanWebArchiveUrls`, in source
order. -/
def archivePassList : List Matcher :=
  [archiveFullM, archiveBasicM, archiveBareM, doubleProtoM,
   lnexunPortM, lnexunHttpM, lnexunM, srcSlashM, hrefSlashM]

/-- `cleanWebArchiveUrls(text)` of fetch_posts.js: identity on the empty
string (the `!text` guard), otherwise the nine regex substitutions in
order. -/
def cleanWebArchiveUrls (s : String) : String :=
  if s == "" then s
  else String.mk (archivePassList.foldl (fun l m => applyPass m l) s.data)

/-- Does the matcher succeed at any position of the list? -/
def hasMatchA (m : Matcher) : List Char → Bool
  | [] => (m []).isSome
  | c :: cs => (m (c :: cs)).isSome || hasMatchA m cs

/-- A string is *fixed* for the normalizer when no substitution pattern
occurs anywhere in it. -/
def archiveCleanFixed (s : String) : Bool :=
  !(hasMatchA archiveFullM s.data) && !(hasMatchA archiveBasicM s.data) &&
  !(hasMatchA archiveBareM s.data) && !(hasMatchA doubleProtoM s.data) &&
  !(hasMatchA lnexunPortM s.data) && !(hasMatchA lnexunHttpM s.data) &&
  !(hasMatchA lnexunM s.data) && !(hasMatchA srcSlashM s.data) &&
  !(hasMatchA hrefSlashM s.data)

theorem gsubA_eq_of_hasMatchA_false (m : Matcher) :
    ∀ (l : List Char), hasMatchA m l = false → ∀ fuel, gsubA m fuel l = l := by
  intro l
  induction l with
  | nil => intro _ fuel; cases fuel <;> rfl
  | cons c cs ih =>
    intro h fuel
    simp only [hasMatchA, Bool.or_eq_false_iff] at h
    have hm : m (c :: cs) = none := by
      rcases hv : m (c :: cs) with _ | v
      · rfl
      · rw [hv] at h; simp at h
    cases fuel with
    | zero => rfl
    | succ f => simp [gsubA, hm, ih h.2 f]

theorem applyPass_eq_of_hasMatchA_false (m : Matcher) (l : List Char)
    (h : hasMatchA m l = false) : applyPass m l = l :=
  gsubA_eq_of_hasMatchA_false m l h _

theorem cleanWebArchiveUrls_eq_of_fixed (s : String)
    (h : archiveCleanFixed s = true) : cleanWebArchiveUrls s = s := by
  simp only [archiveCleanFixed, Bool.and_eq_true, Bool.not_eq_true'] at h
  obtain ⟨⟨⟨⟨⟨⟨⟨⟨h1, h2⟩, h3⟩, h4⟩, h5⟩, h6⟩, h7⟩, h8⟩, h9⟩ := h
  obtain ⟨d⟩ := s
  by_cases hs : String.mk d == ""
  · rw [cleanWebArchiveUrls, if_pos hs]
  · rw [cleanWebArchiveUrls, if_neg (by simpa using hs)]
    simp only [archivePassList, List.foldl_cons, List.foldl_nil]
    rw [applyPass_eq_of_hasMatchA_false _ _ h1, applyPass_eq_of_hasMatchA_false _ _ h2,
      applyPass_eq_of_hasMatchA_false _ _ h3, applyPass_eq_of_hasMatchA_false _ _ h4,
      applyPass_eq_of_hasMatchA_false _ _ h5, applyPass_eq_of_hasMatchA_false _ _ h6,
      applyPass_eq_of_hasMatchA_false _ _ h7, applyPass_eq_of_hasMatchA_false _ _ h8,
      applyPass_eq_of_hasMatchA_false _ _ h9]

/-! ## Data model: Post records

Absent (`undefined`/`null`) JS fields are modelled with `Option`; fields
that every producer in this code base sets to a string are plain
`String`s.  The `type` field of page-content metadata is called `mtype`
here (`type` reads badly as a Lean field name). -/

/-- The `{text, datetime, html}` date value of a Post. -/
structure DateVal where
  text : String
  datetime : String
  html : Option String
deriving DecidableEq

/-- `Post.metadata`. -/
structure PostMeta where
  sourceUrl : Option String := none
  timestamp : Option String := none
  selector : Option String := none
  extractedAt : Option String := none
  error : Option String := none
  mtype : Option String := none
  mergedFrom : Option Nat := none
  sourceTimestamps : Option (List String) := none
deriving DecidableEq

/-- A Post record. -/
structure Post where
  id : Option String := none
  classes : Option String := none
  title : Option String := none
  content : Option String := none
  excerpt : Option String := none
  date : Option DateVal := none
  author : String := ""
  categories : List String := []
  tags : List String := []
  permalink : Option String := none
  fullHtml : Option String := none
  metadata : Option PostMeta := none
  uniqueId : Option String := none
deriving DecidableEq

/-- `post.metadata?.timestamp`. -/
def postTs (p : Post) : Option String := p.metadata.bind (·.timestamp)

/-! ## Consolidator: `generatePostId` (fetch_posts.js) -/

/-- JS `\w` word characters. -/
def isWordChar (c : Char) : Bool :=
  ('a' ≤ c && c ≤ 'z') || ('A' ≤ c && c ≤ 'Z') || ('0' ≤ c && c ≤ '9') || c == '_'

/-- A character surviving `replace(/[^\w\s-]/g, '')`. -/
def keepSlugChar (c : Char) : Bool := isWordChar c || jsIsWs c || c == '-'

/-- Matcher for `/\s+/g`, replaced by `-`. -/
def wsRunM : Matcher := fun l =>
  let run := l.takeWhile jsIsWs
  if run.isEmpty then none else some (['-'], l.drop run.length)

/-- Matcher for the global regex `-+` (a run of hyphens), replaced by
`-`. -/
def hyphenRunM : Matcher := fun l =>
  let run := l.takeWhile (· == '-')
  if run.isEmpty then none else some (['-'], l.drop run.length)

/-- `replace(/^-|-$/g, '')`: one leading and one trailing hyphen are
removed (the regex matches a single `-` at each anchor). -/
def dropOneLead : List Char → List Char
  | '-' :: r => r
  | l => l

def dropOneTrail (l : List Char) : List Char :=
  match l.reverse with
  | '-' :: r => r.reverse
  | _ => l

/-- The title slug computed inside `generatePostId`: lower-case, strip
`[^\w\s-]`, whitespace runs to `-`, collapse `-+`, trim one hyphen at
each end. -/
def consolidationTitleSlug (t : String) : String :=
  let l := (jsToLower t).data.filter keepSlugChar
  String.mk (dropOneTrail (dropOneLead (applyPass hyphenRunM (applyPass wsRunM l))))

/-- The content-hash / timestamp fallback of `generatePostId` (reached
when neither the post's own id nor a usable title slug is available).
`md5hex` is node's `crypto` md5-hex digest, taken as a parameter;
`nowMs` is the `Date.now()` reading. -/
def generatePostIdFallback (md5hex : String → String) (nowMs : Nat) (post : Post) : String :=
  if jsTruthy post.content then
    "content-" ++ jsSubstring (md5hex (jsSubstring (jsGetD post.content) 0 500)) 0 8
  else
    "post-" ++ (if jsTruthy (postTs post) then jsGetD (postTs post) else natToStr nowMs)

/-- The first guard of `generatePostId`: `post.id && post.id !==
'page-content' && post.id !== 'error-post' && !post.id.startsWith('post-')`. -/
def usesOwnId (post : Post) : Bool :=
  jsTruthy post.id && !(jsGetD post.id == "page-content")
    && !(jsGetD post.id == "error-post") && !(jsStartsWith (jsGetD post.id) "post-")

/-- The second guard of `generatePostId`: `post.title && post.title.trim()`. -/
def hasUsableTitle (post : Post) : Bool :=
  jsTruthy post.title && !(jsTrim (jsGetD post.title) == "")

/-- `generatePostId(post)` of fetch_posts.js. -/
def generatePostId (md5hex : String → String) (nowMs : Nat) (post : Post) : String :=
  if usesOwnId post then jsGetD post.id
  else if hasUsableTitle post then
    if 3 < (consolidationTitleSlug (jsGetD post.title)).length then
      consolidationTitleSlug (jsGetD post.title)
    else generatePostIdFallback md5hex nowMs post
  else generatePostIdFallback md5hex nowMs post

/-! ## Consolidator: `mergePosts` (fetch_posts.js) -/

/-- The comparison key of `mergePosts`'s sort:
`(content || '').length + (fullHtml || '').length`. -/
def postContentLen (p : Post) : Nat :=
  (jsOrS p.content "").length + (jsOrS p.fullHtml "").length

/-- Insert into a list already sorted by `postContentLen` descending,
after all entries of greater *or equal* key (stability). -/
def insertByLenDesc (x : Post) : List Post → List Post
  | [] => [x]
  | y :: ys =>
    if postContentLen x ≥ postContentLen y then x :: y :: ys
    else y :: insertByLenDesc x ys

/-- Stable sort by `postContentLen` descending.  JS `Array.prototype.sort`
is stable, and a stable sort's output is uniquely determined by the
comparator and the input order, so insertion sort is an exact model. -/
def sortByLenDesc : List Post → List Post
  | [] => []
  | x :: xs => insertByLenDesc x (sortByLenDesc xs)

/-- First-seen-order deduplication: the iteration order of a JS `Set`
built by successive `add`s. -/
def firstDedupAux : List String → List String → List String
  | acc, [] => acc
  | acc, x :: xs =>
    if x ∈ acc then firstDedupAux acc xs else firstDedupAux (acc ++ [x]) xs

def firstDedup (l : List String) : List String := firstDedupAux [] l

/-- The in-place mutation `mergePosts` performs on the chosen element:
overwrite `categories` and `tags` with the deduplicated unions collected
in iteration order over the (already sorted) array, and set
`metadata.mergedFrom` / `metadata.sourceTimestamps`
(`bestPost.metadata || {}` supplies an empty object when absent;
`filter(Boolean)` drops absent and empty timestamps). -/
def mergeUpdate (best : Post) (sorted : List Post) (groupSize : Nat) : Post :=
  { best with
    categories := firstDedup (sorted.flatMap (·.categories))
    tags := firstDedup (sorted.flatMap (·.tags))
    metadata := some { best.metadata.getD {} with
      mergedFrom := some groupSize
      sourceTimestamps := some (sorted.filterMap (fun p =>
        match postTs p with
        | some t => if t == "" then none else some t
        | none => none)) } }

/-- `mergePosts(posts)` of fetch_posts.js, together with the state of its
input array after the call (the sort is in place, and the chosen element
is mutated).  `none` models the `TypeError` the source throws on an empty
array (`sortedPosts[0]` is `undefined`). -/
def mergePostsRun : List Post → Option (Post × List Post)
  | [p] => some (p, [p])
  | [] => none
  | posts@(_ :: _ :: _) =>
    match sortByLenDesc posts with
    | [] => none
    | best :: rest =>
      let best' := mergeUpdate best (best :: rest) posts.length
      some (best', best' :: rest)

/-! ## Consolidator: statistics (`consolidateAllPosts`, fetch_posts.js) -/

/-- JS numbers as far as this code needs them: `NaN`, the infinities and
exact values. -/
inductive JSNum where
  | nan : JSNum
  | posInf : JSNum
  | negInf : JSNum
  | val : ℚ → JSNum
deriving DecidableEq

/-- JS division. -/
def jsDivQ (a b : ℚ) : JSNum :=
  if b = 0 then (if a = 0 then .nan else if 0 < a then .posInf else .negInf)
  else .val (a / b)

/-- JS `Math.round` (half up; fixed on `NaN` and the infinities). -/
def jsRound : JSNum → JSNum
  | .val q => .val ((⌊q + 1/2⌋ : ℤ) : ℚ)
  | x => x

/-- The `stats` object built at the end of `consolidateAllPosts`
(`dateRange.earliest`/`latest` are inlined as two fields). -/
structure ConsolidationStats where
  totalSnapshots : Nat
  successfulSnapshots : Nat
  totalPostsBeforeDedup : Nat
  uniquePosts : Nat
  duplicatesRemoved : Nat
  postsWithContent : Nat
  postsWithTitles : Nat
  averageContentLength : JSNum
  earliest : Option String
  latest : Option String
deriving DecidableEq

/-- The statistics block of `consolidateAllPosts` (fetch_posts.js
lines 734-755) as a function of the deduplicated post list and the
counters accumulated earlier in the function. -/
def consolidationStats (uniquePosts : List Post)
    (totalSnapshots successfulSnapshots totalBeforeDedup duplicatesFound : Nat) :
    ConsolidationStats :=
  { totalSnapshots := totalSnapshots
    successfulSnapshots := successfulSnapshots
    totalPostsBeforeDedup := totalBeforeDedup
    uniquePosts := uniquePosts.length
    duplicatesRemoved := duplicatesFound
    postsWithContent :=
      (uniquePosts.filter (fun p => jsTruthy p.content && 100 < (jsGetD p.content).length)).length
    postsWithTitles :=
      (uniquePosts.filter (fun p => jsTruthy p.title && !(jsTrim (jsGetD p.title) == ""))).length
    averageContentLength :=
      jsRound (jsDivQ
        ((uniquePosts.foldl (fun sum p => sum + (jsOrS p.content "").length) 0 : Nat) : ℚ)
        ((uniquePosts.length : Nat) : ℚ))
    earliest := uniquePosts.foldl (fun earliest p =>
      let ts := postTs p
      if jsTruthy ts then
        match earliest with
        | none => ts
        | some e => if jsGetD ts < e then ts else earliest
      else earliest) none
    latest := uniquePosts.foldl (fun latest p =>
      let ts := postTs p
      if jsTruthy ts then
        match latest with
        | none => ts
        | some e => if e < jsGetD ts then ts else latest
      else latest) none }

/-! ## Post Extractor (`extractWordPressPosts`, fetch_posts.js)

The cheerio selection API is an external collaborator; it is modelled as
an oracle interface.  Each operation the extractor performs on the
document or on a matched element either returns a value or fails:
`Except String` models a thrown exception carrying `error.message`.
Failures of the per-element callback are caught per element (the element
is skipped); a failing selector is skipped (`continue`); only a failure
before the selector loop reaches the outer catch. -/

/-- The result of `.first()` on a non-empty cheerio selection, as far as
this code reads it: `.text()`, `.html()`, `.attr(name)`. -/
structure ElemView where
  textContent : String
  innerHtml : String
  attrs : String → Option String

/-- A matched post container element: the operations
`extractWordPressPosts` and its helpers perform on `$post` (or, for the
page fallback, on a document-level selection). -/
structure Elem where
  attrs : String → Option String
  find : String → Except String (List ElemView)
  findAnchorTexts : String → Except String (List String)
  textContent : String
  innerHtml : String
  cloneCleanedHtml : Except String String

/-- The parsed document (`$`). -/
structure Doc where
  dollarIsFunction : Bool
  select : String → Except String (List Elem)

/-- `new URL(u)`, reduced to the `protocol` (with trailing `:`) and
`host` parts the permalink resolver reads; throws on a URL without a
scheme. -/
def parseUrlProtoHost (u : String) : Except String (String × String) :=
  match splitAtSub "://".data u.data with
  | none => .error "Invalid URL"
  | some (scheme, rest) =>
    if scheme.isEmpty then .error "Invalid URL"
    else .ok (String.mk scheme ++ ":", String.mk (rest.takeWhile (· ≠ '/')))

/-- First non-empty `.find(sel).first().text().trim()` over a selector
priority list, else `''`. -/
def firstNonEmptyText (post : Elem) : List String → Except String String
  | [] => pure ""
  | sel :: rest => do
    let els ← post.find sel
    let t := jsTrim ((els.head?.map (·.textContent)).getD "")
    if t == "" then firstNonEmptyText post rest else pure t

/-- `extractPostTitle` of fetch_posts.js. -/
def extractPostTitle (post : Elem) : Except String String :=
  firstNonEmptyText post
    [".entry-title", ".post-title", "h1", "h2", ".title", "header h1", "header h2"]

/-- `extractPostAuthor` of fetch_posts.js. -/
def extractPostAuthor (post : Elem) : Except String String :=
  firstNonEmptyText post [".author", ".entry-author", ".post-author", ".by-author", ".vcard"]

def extractPostContentGo (post : Elem) : List String → Except String String
  | [] => post.cloneCleanedHtml
  | sel :: rest => do
    let els ← post.find sel
    match els.head? with
    | some v => pure v.innerHtml
    | none => extractPostContentGo post rest

/-- `extractPostContent` of fetch_posts.js: first selector with a
non-empty selection wins; the fallback is the element's markup with
header/footer/meta children removed. -/
def extractPostContent (post : Elem) : Except String String :=
  extractPostContentGo post
    [".entry-content", ".post-content", ".content", ".post-body", ".entry", ".the-content"]

def extractPostExcerptGo (post : Elem) : List String → Except String String
  | [] => pure ""
  | sel :: rest => do
    let els ← post.find sel
    let ex := (els.head?.map (·.innerHtml)).getD ""
    if ex == "" then extractPostExcerptGo post rest else pure ex

/-- `extractPostExcerpt` of fetch_posts.js. -/
def extractPostExcerpt (post : Elem) : Except String String :=
  extractPostExcerptGo post [".entry-summary", ".excerpt", ".post-excerpt", ".summary"]

def extractPostDateGo (post : Elem) : List String → Except String (Option DateVal)
  | [] => pure none
  | sel :: rest => do
    let els ← post.find sel
    match els.head? with
    | some v => pure (some
        { text := jsTrim v.textContent
          datetime := jsOrS (v.attrs "datetime") (jsOrS (v.attrs "title") "")
          html := some v.innerHtml })
    | none => extractPostDateGo post rest

/-- `extractPostDate` of fetch_posts.js. -/
def extractPostDate (post : Elem) : Except String (Option DateVal) :=
  extractPostDateGo post
    [".entry-date", ".post-date", ".date", "time", ".published", ".post-meta .date"]

def extractAnchorListGo (post : Elem) : List String → Except String (List String)
  | [] => pure []
  | sel :: rest => do
    let texts ← post.findAnchorTexts sel
    let items := texts.map jsTrim
    if items.isEmpty then extractAnchorListGo post rest else pure items

/-- `extractPostCategories` of fetch_posts.js. -/
def extractPostCategories (post : Elem) : Except String (List String) :=
  extractAnchorListGo post [".category", ".categories", ".post-categories", ".entry-categories"]

/-- `extractPostTags` of fetch_posts.js. -/
def extractPostTags (post : Elem) : Except String (List String) :=
  extractAnchorListGo post [".tags", ".post-tags", ".entry-tags", ".tag"]

def extractPostPermalinkGo (post : Elem) (baseUrl : String) :
    List String → Except String String
  | [] => pure ""
  | sel :: rest => do
    let els ← post.find sel
    match els.head?.bind (fun v => v.attrs "href") with
    | some href =>
      if href == "" then extractPostPermalinkGo post baseUrl rest
      else if jsStartsWith href "http" then pure href
      else if jsStartsWith href "/" then do
        let (proto, host) ← parseUrlProtoHost baseUrl
        pure (proto ++ "//" ++ host ++ href)
      else extractPostPermalinkGo post baseUrl rest
    | none => extractPostPermalinkGo post baseUrl rest

/-- `extractPostPermalink` of fetch_posts.js: absolute links pass
through, root-relative links are resolved against the archive URL's
scheme+host. -/
def extractPostPermalink (post : Elem) (baseUrl : String) : Except String String :=
  extractPostPermalinkGo post baseUrl
    [".entry-title a", ".post-title a", "h1 a", "h2 a", ".permalink"]

/-- The body of the `elements.each` callback (fetch_posts.js lines
68-91): build one Post from one matched element.  `nowIso` is the
`new Date().toISOString()` reading. -/
def buildPost (el : Elem) (index : Nat) (url timestamp selector nowIso : String) :
    Except String Post := do
  pure
    { id := some (jsOrS (el.attrs "id") ("post-" ++ natToStr index))
      classes := some (jsOrS (el.attrs "class") "")
      title := some (← extractPostTitle el)
      content := some (← extractPostContent el)
      excerpt := some (← extractPostExcerpt el)
      date := ← extractPostDate el
      author := ← extractPostAuthor el
      categories := ← extractPostCategories el
      tags := ← extractPostTags el
      permalink := some (← extractPostPermalink el url)
      fullHtml := some el.innerHtml
      metadata := some
        { sourceUrl := some url, timestamp := some timestamp
          selector := some selector, extractedAt := some nowIso } }

/-- The ordered structural selector list of `extractWordPressPosts`. -/
def postSelectors : List String :=
  ["article", ".post", ".hentry", ".entry", "[class*=\"post\"]",
   "#content .post", ".content .post", ".main .post"]

/-- The selector loop: the first selector whose selection is non-empty
wins (`break`); a selector whose evaluation throws is skipped
(`continue`); a per-element failure drops only that element.  `none`
means no selector matched (`foundPosts` stayed false). -/
def selectorLoopGo (doc : Doc) (url timestamp nowIso : String) :
    List String → Option (List Post)
  | [] => none
  | sel :: rest =>
    match doc.select sel with
    | .error _ => selectorLoopGo doc url timestamp nowIso rest
    | .ok [] => selectorLoopGo doc url timestamp nowIso rest
    | .ok els =>
      some ((els.enum).filterMap
        (fun p => (buildPost p.2 p.1 url timestamp sel nowIso).toOption))

/-- `extractPageContent` of fetch_posts.js: the whole-page fallback Post,
or `none` when no main-content container exists. -/
def extractPageContent (doc : Doc) (url timestamp nowIso : String) :
    Except String (Option Post) := do
  let mains ← doc.select "#main, #content, .main, .content"
  match mains.head? with
  | none => pure none
  | some m => do
    let titleEls ← doc.select "title"
    let titleTxt := String.join (titleEls.map (·.textContent))
    let h1s ← doc.select "h1"
    let title := jsOrS (some titleTxt)
      (jsOrS (some ((h1s.head?.map (·.textContent)).getD "")) "Page Content")
    pure (some
      { id := some "page-content", classes := some "page-content"
        title := some (jsTrim title), content := some m.innerHtml
        excerpt := some "", date := none, author := "", categories := [], tags := []
        permalink := some url, fullHtml := some m.innerHtml
        metadata := some
          { sourceUrl := some url, timestamp := some timestamp
            selector := some "page-content", extractedAt := some nowIso
            mtype := some "page" } })

/-- The body of the outer `try` of `extractWordPressPosts`: everything
that can reach the outer `catch` (that is, everything before and around
the per-element processing; per-element and per-selector failures are
caught locally and never escape). -/
def extractCore (doc : Doc) (url timestamp nowIso : String) : Except String (List Post) := do
  if !doc.dollarIsFunction then throw "Cheerio $ function is not available"
  match doc.select "html" with
  | .error e => throw ("Cheerio test failed: " ++ e)
  | .ok _ => pure ()
  match selectorLoopGo doc url timestamp nowIso postSelectors with
  | some posts => pure posts
  | none =>
    match extractPageContent doc url timestamp nowIso with
    | .error _ => pure []
    | .ok none => pure []
    | .ok (some p) => pure [p]

/-- The sentinel error-Post built in the outer `catch`. -/
def errorPost (msg url timestamp nowIso : String) : Post :=
  { id := some "error-post", classes := some "error"
    title := some "Extraction Error"
    content := some ("Failed to extract content: " ++ msg)
    excerpt := some "", date := none, author := "", categories := [], tags := []
    permalink := some url, fullHtml := some ""
    metadata := some
      { sourceUrl := some url, timestamp := some timestamp
        selector := some "error", extractedAt := some nowIso
        error := some msg } }

/-- `extractWordPressPosts($, url, timestamp)` of fetch_posts.js: the
outer try/catch collapses any escaping failure to the single-element
sentinel list. -/
def extractWordPressPosts (doc : Doc) (url timestamp nowIso : String) : List Post :=
  match extractCore doc url timestamp nowIso with
  | .ok posts => posts
  | .error msg => [errorPost msg url timestamp nowIso]

/-! ## Identity Resolver (`getAuthorLogin` / `createNewUser`, test_single.js) -/

/-- An author identity record. -/
structure Author where
  id : Nat
  login : String
  email : String
  display_name : String
  first_name : String
  last_name : String
deriving DecidableEq

set_option maxHeartbeats 1000000 in
/-- The fixed pre-seeded `AUTHORS` object of test_single.js, as an
ordered association list (JS object property insertion order, which is
what `Object.entries` iterates). -/
def AUTHORS : List (String × Author) := [
  ("admin", ⟨3, "admin", "felukewl+lnexun@gmail.com", "admin", "", ""⟩),
  ("aurojit", ⟨20, "aurojit", "aurojit@gmail.com", "aurojit", "Aurojit", "Panda"⟩),
  ("udrastogi", ⟨21, "udrastogi", "udrastogi@gmail.com", "udrastogi", "Udit", "Rastogi"⟩),
  ("ikkumpal", ⟨9, "ikkumpal", "ikkumpal@gmail.com", "ikkumpal", "Mukesh", "Kumar"⟩),
  ("viksit", ⟨22, "viksit", "viksit@gmail.com", "viksit", "", ""⟩),
  ("souvikdg", ⟨23, "souvikdg", "souvikdg@gmail.com", "souvikdg", "Souvik", "Das Gupta"⟩),
  ("prateekrungta", ⟨24, "prateekrungta", "prateekrungta@gmail.com", "prateekrungta", "Prateek", "Rungta"⟩),
  ("anant90", ⟨25, "anant90", "anant90@gmail.com", "anant90", "Anant", "Jain"⟩),
  ("aayushkumar", ⟨26, "aayushkumar", "aayushkumar@gmail.com", "aayushkumar", "Aayush", "Kumar"⟩),
  ("aditya.aditude", ⟨6, "aditya.aditude", "aditya.aditude@gmail.com", "aditya.aditude", "Aditya", "Jain"⟩),
  ("sidnangia", ⟨8, "sidnangia", "sidnangia@gmail.com", "sidnangia", "Siddharth", "Nangia"⟩),
  ("raghavkhullar", ⟨27, "raghavkhullar", "raghavkhullar@gmail.com", "raghavkhullar", "Raghav", "Khullar"⟩),
  ("sahil29", ⟨16, "sahil29", "sahil29@gmail.com", "Â» sahil", "Sahil", "Bajaj"⟩),
  ("srajanmani", ⟨28, "srajanmani", "srajanmani@gmail.com", "srajanmani", "Srajan", "Rastogi"⟩),
  ("shubham.cash", ⟨12, "shubham.cash", "shubham.cash@gmail.com", "Shubham Goel", "Shubham", "Goel"⟩),
  ("akritigaur", ⟨13, "akritigaur", "akritigaur@gmail.com", "akritigaur", "Akriti", "Gaur"⟩),
  ("ralbhat", ⟨5, "ralbhat", "ralbhat@gmail.com", "Rahul", "Rahul", "Bhatnagar"⟩),
  ("samarth.math", ⟨14, "samarth.math", "samarth.math@gmail.com", "samarth.math", "Samarth", "Mathur"⟩),
  ("goonerbynature", ⟨18, "goonerbynature", "tanayrulz@gmail.com", "goonerbynature", "Tanay", "Padhi"⟩),
  ("vishesh420", ⟨19, "vishesh420", "vishesh420@gmail.com", "vishesh420", "Vishesh", "Kumar"⟩),
  ("pranavobhrai", ⟨29, "pranavobhrai", "pranavobhrai@gmail.com", "pranavobhrai", "Pranav", "Obhrai"⟩),
  ("aditya.grover1", ⟨17, "aditya.grover1", "aditya.grover1@gmail.com", "aditya.grover1", "Aditya", "Grover"⟩),
  ("246964", ⟨15, "246964", "246964@gmail.com", "Sid", "Sidharth", "Iyer"⟩),
  ("felu", ⟨10, "felu", "felukewl@gmail.com", "Bhuwan Khattar", "Bhuwan", "Khattar"⟩),
  ("kush2005", ⟨7, "kush2005", "kush2005@gmail.com", "Kush Agrawal", "Kush", "Agrawal"⟩),
  ("pratham.agrawal92", ⟨4, "pratham.agrawal92", "pratham.agrawal92@gmail.com", "pratham.agrawal92", "Pratham", "Agrawal"⟩),
  ("ronng93", ⟨11, "ronng93", "ronng93@gmail.com", "ronng93", "Srijit", "Ghosh"⟩),
  ("varzrulz", ⟨30, "varzrulz", "varzrulz@gmail.com", "varzrulz", "Varun", "Dubey"⟩),
  ("karanveer.1992", ⟨31, "karanveer.1992", "karanveer.1992@gmail.com", "Karanveer", "Karanveer", "Mohan"⟩),
  ("mayank.sharmas94", ⟨32, "mayank.sharmas94", "mayank.sharmas94@gmail.com", "mayank.sharmas94", "Mayank", "Sharma"⟩),
  ("achalv2.0", ⟨33, "achalv2.0", "achalv2.0@gmail.com", "Achal Varma", "Achal", "Varma"⟩),
  ("strong.aman", ⟨34, "strong.aman", "strong.aman@gmail.com", "strong.aman", "aman", "agarwal"⟩),
  ("gursartaj", ⟨35, "gursartaj", "gursartaj@gmail.com", "gursartaj", "gursartaj", "nijjar"⟩),
  ("ishan28mkip", ⟨36, "ishan28mkip", "ishan28mkip@gmail.com", "ishan28mkip", "Ishan", "Sharma"⟩),
  ("bharatkashyap.exun", ⟨38, "bharatkashyap.exun", "bharatkashyap.exun@gmail.com", "Bharat Kashyap", "Bharat", "Kashyap"⟩),
  ("amazinash94", ⟨37, "amazinash94", "amazinash94@gmail.com", "Aishwarya Kane", "Aishwarya", "Kane"⟩),
  ("sanchit.windows", ⟨39, "sanchit.windows", "sanchit.windows@gmail.com", "Sanchit Abrol", "Sanchit", "Abrol"⟩),
  ("sibesh96@gmail.com", ⟨40, "sibesh96@gmail.com", "sibesh96@gmail.com", "Sibesh Kar", "Sibesh", "Kar"⟩),
  ("ananay", ⟨2, "ananay", "ananay@exunclan.com", "ananay", "", ""⟩),
  ("trijeetm", ⟨41, "trijeetm", "trijeetm@gmail.com", "Trijeet Mukhopadhyay", "Trijeet", "Mukhopadhyay"⟩),
  ("ibatra171", ⟨43, "ibatra171", "ibatra171@gmail.com", "ibatra171", "Ishita", "Batra"⟩),
  ("keshavadhyay", ⟨44, "keshavadhyay", "keshavadhyay@gmail.com", "keshavadhyay", "Keshav", "Adhyay"⟩),
  ("rohan.nagpal94", ⟨45, "rohan.nagpal94", "rohan.nagpal94@gmail.com", "Rohan Nagpal", "Rohan", "Nagpal"⟩),
  ("sealelf", ⟨46, "sealelf", "sealelf@gmail.com", "Akshay Dadhwal", "Akshay", "Dadhwal"⟩),
  ("ambarpal1996", ⟨47, "ambarpal1996", "ambarpal1996@gmail.com", "Ambar Pal", "Ambar", "Pal"⟩),
  ("abhishekbiswal", ⟨48, "abhishekbiswal", "abhishekbiswal@live.com", "abhishekbiswal", "Abhishek", "Biswal"⟩),
  ("siddharthbhogra", ⟨49, "siddharthbhogra", "siddharthbhogra@gmail.com", "Siddharth Bhogra", "Siddharth", "Bhogra"⟩),
  ("iammohitsharma", ⟨50, "iammohitsharma", "iammohitsharma@gmail.com", "iammohitsharma", "Mohit", "Sharma"⟩),
  ("MadhavNarayan", ⟨51, "MadhavNarayan", "soccermadhav@gmail.com", "Madhav Narayan", "Madhav", "Narayan"⟩),
  ("prannaykhosla", ⟨52, "prannaykhosla", "prannay.khosla@gmail.com", "Prannay Khosla", "Prannay", "Khosla"⟩),
  ("parth", ⟨53, "parth", "parth082997@gmail.com", "Parth Mittal", "Parth", "Mittal"⟩),
  ("abhishekdpseok", ⟨54, "abhishekdpseok", "abhishekdpseok@gmail.com", "Abhishek Anand", "Abhishek", "Anand"⟩),
  ("arkin", ⟨55, "arkin", "geekarkin@gmail.com", "Arkin Gupta", "Arkin", "Gupta"⟩),
  ("TanayVardhan", ⟨57, "TanayVardhan", "tanaytku@gmail.com", "Tanay Vardhan", "Tanay", "Vardhan"⟩),
  ("sana", ⟨56, "sana", "thesanagujral@gmail.com", "Sana Gujral", "Sana", "Gujral"⟩),
  ("devanshgandhi", ⟨42, "devanshgandhi", "devanshgandhi103@gmail.com", "Devansh Gandhi", "Devansh", "Gandhi"⟩),
  ("saumitrkhullar", ⟨59, "saumitrkhullar", "saumitrkhullar@gmail.com", "Saumitra Khullar", "Saumitra", "Khullar"⟩),
  ("akshaygupta", ⟨58, "akshaygupta", "wizardgupta@gmail.com", "Akshay Gupta", "Akshay", "Gupta"⟩),
  ("harshil", ⟨60, "harshil", "harshilkashyap3598@gmail.com", "Harshil Kashyap", "Harshil", "Kashyap"⟩),
  ("eagerbeavers", ⟨61, "eagerbeavers", "udit@exunclan.com", "Udit Malik", "Udit", "Malik"⟩),
  ("tanmay", ⟨62, "tanmay", "bansal.tanmay99@gmail.com", "Tanmay Bansal", "Tanmay", "Bansal"⟩),
  ("manav", ⟨63, "manav", "manavaggarwal1234@gmail.com", "Manav Aggarwal", "Manav", "Aggarwal"⟩),
  ("gshagun20", ⟨64, "gshagun20", "gshagun20@gmail.com", "Shagun Goel", "Shagun", "Goel"⟩),
  ("ritin", ⟨65, "ritin", "ritin@gauravpachnanda.com", "Ritin Pachnanda", "Ritin", "Pachnanda"⟩),
  ("aveneel", ⟨66, "aveneel", "aveneel@hotmail.com", "Aveneel Waadhwa", "Aveneel", "Waadhwa"⟩),
  ("srijan", ⟨67, "srijan", "srijanjain1207@gmail.com", "Srijan Jain", "Srijan", "Jain"⟩),
  ("ayush", ⟨68, "ayush", "ayushsingla.as@gmail.com", "Ayush Singla", "Ayush", "Singla"⟩),
  ("anirudhgoyal", ⟨69, "anirudhgoyal", "anirudh.goyal05@gmail.com", "Anirudh Goyal", "Anirudh", "Goyal"⟩),
  ("rohan", ⟨70, "rohan", "rohan.offi@gmail.com", "Rohan Dhar", "Rohan", "Dhar"⟩),
  ("aaraivsharma", ⟨72, "aaraivsharma", "aaraivcool7@gmail.com", "Aaraiv Sharma", "Aaraiv", "Sharma"⟩),
  ("akshaykhandelwal", ⟨71, "akshaykhandelwal", "akshay@exunclan.com", "Akshay Khandelwal", "Akshay", "Khandelwal"⟩),
  ("kabir", ⟨73, "kabir", "kabirgoel.kg@gmail.com", "Kabir Goel", "Kabir", "Goel"⟩)]

/-- The dynamic `CREATED_USERS` pool: a JS `Map` as an ordered
association list. -/
abbrev CreatedSt : Type := List (String × Author)

/-- JS `Map.prototype.set`: overwriting keeps the original insertion
position; a fresh key is appended. -/
def mapSet (m : CreatedSt) (k : String) (v : Author) : CreatedSt :=
  if (List.lookup k m).isSome then
    m.map (fun kv => if kv.1 == k then (kv.1, v) else kv)
  else m ++ [(k, v)]

/-- First/last name split of `createNewUser`: first and last
whitespace-separated token. -/
def firstLastOf (cleanAuthor : String) : String × String :=
  let nameParts := splitWs cleanAuthor
  if 2 <= nameParts.length then (nameParts.headD "", nameParts.getLastD "")
  else if nameParts.length == 1 then (nameParts.headD "", "")
  else ("", "")

/-- `username.replace(/[^a-z0-9.]/g, '')`. -/
def lcFilterUser (s : String) : String :=
  String.mk (s.data.filter (fun c =>
    ('a' <= c && c <= 'z') || ('0' <= c && c <= '9') || c == '.'))

/-- `replace(/[^a-z0-9]/g, '')`. -/
def lcFilterEmail (s : String) : String :=
  String.mk (s.data.filter (fun c =>
    ('a' <= c && c <= 'z') || ('0' <= c && c <= '9')))

/-- The username `createNewUser` synthesizes from an author string
(`firstname.lastname`, sanitized); a pure function of the input. -/
def synthUsername (authorString : String) : String :=
  let fl := firstLastOf (jsTrim authorString)
  lcFilterUser (if !(fl.2 == "") then jsToLower fl.1 ++ "." ++ jsToLower fl.2
                else jsToLower fl.1)

/-- The email `createNewUser` synthesizes. -/
def synthEmail (authorString : String) : String :=
  let fl := firstLastOf (jsTrim authorString)
  "ananay+" ++
    lcFilterEmail (if !(fl.2 == "") then jsToLower fl.1 ++ jsToLower fl.2
                   else jsToLower fl.1) ++ "@exunclan.com"

/-- `createNewUser(authorString)` of test_single.js: synthesize an
identity, register it in the dynamic pool (`CREATED_USERS.set`), and
return its login.  The new id is `1000 + CREATED_USERS.size + 1` at call
time. -/
def createNewUser (authorString : String) (created : CreatedSt) : String × CreatedSt :=
  if authorString == "" || jsTrim authorString == "" then ("admin", created)
  else
    let cleanAuthor := jsTrim authorString
    let fl := firstLastOf cleanAuthor
    let cleanUsername := synthUsername authorString
    let newUser : Author :=
      { id := 1000 + created.length + 1
        login := cleanUsername
        email := synthEmail authorString
        display_name := cleanAuthor
        first_name := fl.1
        last_name := fl.2 }
    (cleanUsername, mapSet created cleanUsername newUser)

/-- The second matching phase of `getAuthorLogin`: case-insensitive exact
match against display name, "first last", bare first name or bare last
name, in `AUTHORS` iteration order. -/
def exactNameMatch (cleanAuthor : String) : Option String :=
  AUTHORS.findSome? (fun kv =>
    let displayName := jsToLower kv.2.display_name
    let firstName := jsToLower kv.2.first_name
    let lastName := jsToLower kv.2.last_name
    let fullName := jsTrim (firstName ++ " " ++ lastName)
    if displayName == cleanAuthor || fullName == cleanAuthor ||
        firstName == cleanAuthor || lastName == cleanAuthor then some kv.1
    else none)

/-- The third matching phase of `getAuthorLogin`: token-level match
(first *and* last name as whole tokens, or the display name as a whole
token). -/
def tokenMatch (cleanAuthor : String) : Option String :=
  let authorWords := splitWs cleanAuthor
  AUTHORS.findSome? (fun kv =>
    let firstName := jsToLower kv.2.first_name
    let lastName := jsToLower kv.2.last_name
    let displayName := jsToLower kv.2.display_name
    if !(firstName == "") && !(lastName == "") &&
        authorWords.contains firstName && authorWords.contains lastName then some kv.1
    else if !(displayName == "") && authorWords.contains displayName then some kv.1
    else none)

/-- The three matching phases of `getAuthorLogin` in order: direct
`AUTHORS[cleanAuthor]` property lookup, exact-name matching, token
matching. -/
def findAuthorMatch (cleanAuthor : String) : Option String :=
  if (List.lookup cleanAuthor AUTHORS).isSome then some cleanAuthor
  else
    match exactNameMatch cleanAuthor with
    | some login => some login
    | none => tokenMatch cleanAuthor

/-- `getAuthorLogin(authorString)` of test_single.js, with the
`CREATED_USERS` pool passed explicitly. -/
def getAuthorLogin (authorString : String) (created : CreatedSt) : String × CreatedSt :=
  if authorString == "" || jsTrim authorString == "" then ("admin", created)
  else
    let cleanAuthor := jsTrim (jsToLower authorString)
    match findAuthorMatch cleanAuthor with
    | some login => (login, created)
    | none => createNewUser authorString created

/-! ## Export Serializer: dates (test_single.js)

JS `Date` values are modelled by their UTC calendar fields.  An invalid
date is `none`; `toISOString()` on an invalid date throws, which
propagates as `none` through the serializer. -/

/-- UTC calendar fields of a JS `Date`. -/
structure JsDateTime where
  year : Nat
  month : Nat
  day : Nat
  hour : Nat
  minute : Nat
  second : Nat
deriving DecidableEq

/-- The run-specific readings of `Date.now()`, `Math.floor(Math.random()
* 1000)` and `new Date()` (UTC fields).  The code reads the clock and
the RNG a bounded number of times per item; a single reading per run is
enough to model the properties at issue here, which concern variation
*across* runs, not drift within one. -/
structure RunEnv where
  nowMs : Nat
  rand : Nat
  nowDT : JsDateTime
deriving DecidableEq

def isLeapYear (y : Nat) : Bool := (y % 4 == 0 && y % 100 != 0) || y % 400 == 0

def daysInMonth (y m : Nat) : Nat :=
  if m == 2 then (if isLeapYear y then 29 else 28)
  else if m == 4 || m == 6 || m == 9 || m == 11 then 30
  else 31

/-- Parse a fixed-width all-digit field. -/
def parseDigits (s : String) (w : Nat) : Option Nat :=
  if s.length == w && s.data.all isDigitChar then some (digitsToNat s.data) else none

/-- `new Date("YYYY-MM-DDTHH:MM:SSZ")` built from the six field strings:
the ECMA ISO parse accepts only correctly-shaped fields and in-range
calendar values; anything else is an Invalid Date (`none`). -/
def jsDateFromParts (ystr mstr dstr hstr mistr sstr : String) : Option JsDateTime := do
  let y ← parseDigits ystr 4
  let m ← parseDigits mstr 2
  let d ← parseDigits dstr 2
  let h ← parseDigits hstr 2
  let mi ← parseDigits mistr 2
  let s ← parseDigits sstr 2
  if 1 ≤ m && m ≤ 12 && 1 ≤ d && d ≤ daysInMonth y m && h ≤ 23 && mi ≤ 59 && s ≤ 59 then
    some ⟨y, m, d, h, mi, s⟩
  else none

/-- `date.toISOString().replace(/\.\d{3}Z$/, '+00:00')`: the ISO
rendering with the milliseconds-and-Z tail replaced by `+00:00`. -/
def isoRenderOffset (dt : JsDateTime) : String :=
  pad4 dt.year ++ "-" ++ pad2 dt.month ++ "-" ++ pad2 dt.day ++ "T" ++
  pad2 dt.hour ++ ":" ++ pad2 dt.minute ++ ":" ++ pad2 dt.second ++ "+00:00"

/-- `formatWordPressDate(timestamp)` of test_single.js: the `!timestamp`
branch renders the current time; otherwise the 14-digit capture
timestamp is sliced into calendar fields (hour/minute/second default to
`12`/`00`/`00` when the slice is empty) and re-parsed through `Date`.
`none` models the `RangeError` thrown by `toISOString` on an invalid
date. -/
def formatWordPressDate (env : RunEnv) (timestamp : Option String) : Option String :=
  if !(jsTruthy timestamp) then some (isoRenderOffset env.nowDT)
  else
    let ts := jsGetD timestamp
    (jsDateFromParts (jsSubstring ts 0 4) (jsSubstring ts 4 6) (jsSubstring ts 6 8)
      (jsOrS (some (jsSubstring ts 8 10)) "12")
      (jsOrS (some (jsSubstring ts 10 12)) "00")
      (jsOrS (some (jsSubstring ts 12 14)) "00")).map isoRenderOffset

/-- Days since 1970-01-01 of a proleptic-Gregorian civil date (the
standard days-from-civil algorithm). -/
def daysFromCivil (y m d : Nat) : Int :=
  let y' : Int := (y : Int) - (if m ≤ 2 then 1 else 0)
  let era : Int := (if 0 ≤ y' then y' else y' - 399) / 400
  let yoe : Int := y' - era * 400
  let doy : Int := (153 * ((m : Int) + (if 2 < m then -3 else 9)) + 2) / 5 + (d : Int) - 1
  let doe : Int := yoe * 365 + yoe / 4 - yoe / 100 + doy
  era * 146097 + doe - 719468

/-- Weekday index (0 = Sunday); 1970-01-01 was a Thursday. -/
def weekdayIdx (y m d : Nat) : Nat :=
  (((daysFromCivil y m d + 4) % 7 + 7) % 7).toNat

def weekdayName (i : Nat) : String :=
  (["Sun", "Mon", "Tue", "Wed", "Thu", "Fri", "Sat"].getD i "Sun")

def monthName (m : Nat) : String :=
  (["Jan", "Feb", "Mar", "Apr", "May", "Jun", "Jul", "Aug", "Sep", "Oct",
    "Nov", "Dec"].getD (m - 1) "Jan")

/-- `Date.prototype.toUTCString` rendering of a valid date. -/
def toUTCStringOfDT (dt : JsDateTime) : String :=
  weekdayName (weekdayIdx dt.year dt.month dt.day) ++ ", " ++ pad2 dt.day ++ " " ++
  monthName dt.month ++ " " ++ pad4 dt.year ++ " " ++ pad2 dt.hour ++ ":" ++
  pad2 dt.minute ++ ":" ++ pad2 dt.second ++ " GMT"

/-- Parse the `YYYY-MM-DDTHH:MM:SS+00:00` strings produced by
`formatWordPressDate` (the only shape ever passed back into
`new Date(publishDate)` here). -/
def parseIsoOffset (s : String) : Option JsDateTime :=
  if s.length == 25 && jsSubstring s 4 5 == "-" && jsSubstring s 7 8 == "-" &&
      jsSubstring s 10 11 == "T" && jsSubstring s 13 14 == ":" &&
      jsSubstring s 16 17 == ":" && jsSubstring s 19 25 == "+00:00" then
    jsDateFromParts (jsSubstring s 0 4) (jsSubstring s 5 7) (jsSubstring s 8 10)
      (jsSubstring s 11 13) (jsSubstring s 14 16) (jsSubstring s 17 19)
  else none

/-- `new Date(s).toUTCString()`; an unparseable input is an Invalid
Date, which `toUTCString` renders as `"Invalid Date"`. -/
def jsToUTCString (s : String) : String :=
  match parseIsoOffset s with
  | some dt => toUTCStringOfDT dt
  | none => "Invalid Date"

/-! ## Export Serializer: WXR generation (test_single.js) -/

/-- One single-character global replace (the building block of
`escapeXml`). -/
def replaceChar (c : Char) (rep : String) (s : String) : String :=
  String.mk (s.data.flatMap (fun x => if x == c then rep.data else [x]))

/-- `escapeXml(unsafe)` of test_single.js: the five entity replaces in
source order (`&` first).  The `!unsafe` guard maps the empty string to
itself. -/
def escapeXml (s : String) : String :=
  if s == "" then ""
  else
    replaceChar (Char.ofNat 39) "&#039;"
      (replaceChar '"' "&quot;"
        (replaceChar '>' "&gt;"
          (replaceChar '<' "&lt;"
            (replaceChar '&' "&amp;" s))))

/-- Matcher for the CDATA close sequence, replaced by `]]&gt;`. -/
def cdataEscM : Matcher := fun l =>
  (parseLit "]]>" l).map (fun r => ("]]&gt;".data, r))

/-- `cdata(content)` of test_single.js: empty content yields the empty
string (no CDATA wrapper); otherwise the close sequence is escaped and
the content wrapped. -/
def cdata (content : String) : String :=
  if content == "" then ""
  else "<![CDATA[" ++ String.mk (applyPass cdataEscM content.data) ++ "]]>"

/-- `generateSlug(title, postId)` of test_single.js: the same slug
pipeline as `generatePostId`'s title slug, capped at 200 characters;
falls back to `postId || 'post'` for a blank title. -/
def generateSlug (title : String) (postId : Option String) : String :=
  if !(title == "") && !(jsTrim title == "") then
    jsSubstring (consolidationTitleSlug title) 0 200
  else jsOrS postId "post"

/-- The taxonomy slug used by `createTaxonomyXml` and the header term
definitions: lower-case, strip `[^\w\s-]`, whitespace runs to `-` (no
hyphen collapsing or trimming here). -/
def taxonomySlug (term : String) : String :=
  String.mk (applyPass wsRunM ((jsToLower term).data.filter keepSlugChar))

/-- `createTaxonomyXml(terms, taxonomy)` of test_single.js. -/
def createTaxonomyXml (terms : List String) (taxonomy : String) : String :=
  if terms.isEmpty then ""
  else
    String.join (terms.map (fun term =>
      "\n\t\t<category domain=\"" ++ taxonomy ++ "\" nicename=\"" ++
      escapeXml (taxonomySlug term) ++ "\">" ++ cdata term ++ "</category>"))

/-- `/^\d+$/.test(s)`. -/
def idAllDigits (s : String) : Bool := !s.data.isEmpty && s.data.all isDigitChar

/-- First match of the regex `post-(\d+)`: the digit run after the first
`post-` that is followed by at least one digit. -/
def findPostNumGo : List Char → Option Nat
  | [] => none
  | c :: cs =>
    if listStarts "post-".data (c :: cs) then
      let ds := ((c :: cs).drop 5).takeWhile isDigitChar
      if ds.isEmpty then findPostNumGo cs else some (digitsToNat ds)
    else findPostNumGo cs

def findPostNum (s : String) : Option Nat := findPostNumGo s.data

/-- `extractPostId(post)` of test_single.js: numeric id, `post-<n>` in
the id, `post-<n>` in the classes, `parseInt` of the capture timestamp
(`substring(-8)` is the whole string; `|| Date.now()` catches `NaN` and
`0`), else `Date.now() + Math.floor(Math.random() * 1000)`. -/
def extractPostId (env : RunEnv) (post : Post) : Int :=
  if jsTruthy post.id && idAllDigits (jsGetD post.id) then
    (parseIntJS (jsGetD post.id)).getD 0
  else if jsTruthy post.id && jsIncludes (jsGetD post.id) "post-" &&
      (findPostNum (jsGetD post.id)).isSome then
    ((findPostNum (jsGetD post.id)).getD 0 : Int)
  else if jsTruthy post.classes && jsIncludes (jsGetD post.classes) "post-" &&
      (findPostNum (jsGetD post.classes)).isSome then
    ((findPostNum (jsGetD post.classes)).getD 0 : Int)
  else if jsTruthy (postTs post) then
    match parseIntJS (jsSubstringFrom (jsGetD (postTs post)) (-8)) with
    | some v => if v == 0 then (env.nowMs : Int) else v
    | none => (env.nowMs : Int)
  else (env.nowMs : Int) + (env.rand : Int)

/-- `publishDate.replace(/\+00:00$/, '')`. -/
def stripOffsetSuffix (s : String) : String :=
  if listStarts "00:00+".data s.data.reverse then
    String.mk (s.data.take (s.data.length - 6))
  else s

/-- JS `o || d` for a possibly-absent number (`0` is falsy). -/
def jsOrNat (o : Option Nat) (d : Nat) : Nat :=
  match o with
  | none => d
  | some n => if n == 0 then d else n

/-- `convertPostToWxr(post, index)` of test_single.js (the index
parameter is unused in the source body).  Returns the item XML together
with the `CREATED_USERS` pool after the embedded `getAuthorLogin` call;
`none` models the exception thrown when `formatWordPressDate` hits an
invalid date. -/
def convertPostToWxr (env : RunEnv) (post : Post) (_index : Nat) (created : CreatedSt) :
    Option (String × CreatedSt) :=
  let postId := extractPostId env post
  let title := jsOrS post.title "Untitled Post"
  let slug := generateSlug title post.uniqueId
  let content := jsOrS post.content (jsOrS post.fullHtml "")
  let excerpt := jsOrS post.excerpt ""
  let alc := getAuthorLogin post.author created
  match formatWordPressDate env (postTs post) with
  | none => none
  | some publishDate =>
    let wpDate := stripOffsetSuffix publishDate
    let wpDateGmt := stripOffsetSuffix publishDate
    let categoriesXml := createTaxonomyXml post.categories "category"
    let tagsXml := createTaxonomyXml post.tags "post_tag"
    some (
      "\n\t<item>\n\t\t<title>" ++ title ++
      "</title>\n\t\t<link>https://lnexun.com/" ++ slug ++
      "/</link>\n\t\t<pubDate>" ++ jsToUTCString publishDate ++
      "</pubDate>\n\t\t<dc:creator>" ++ cdata alc.1 ++
      "</dc:creator>\n\t\t<guid isPermaLink=\"false\">https://lnexun.com/?p=" ++
      intToStr postId ++
      "</guid>\n\t\t<description></description>\n\t\t<content:encoded>" ++
      cdata content ++ "</content:encoded>\n\t\t<excerpt:encoded>" ++
      cdata excerpt ++ "</excerpt:encoded>\n\t\t<wp:post_id>" ++
      intToStr postId ++ "</wp:post_id>\n\t\t<wp:post_date>" ++
      cdata wpDate ++ "</wp:post_date>\n\t\t<wp:post_date_gmt>" ++
      cdata wpDateGmt ++ "</wp:post_date_gmt>\n\t\t<wp:comment_status>" ++
      cdata "open" ++ "</wp:comment_status>\n\t\t<wp:ping_status>" ++
      cdata "open" ++ "</wp:ping_status>\n\t\t<wp:post_name>" ++
      cdata slug ++ "</wp:post_name>\n\t\t<wp:status>" ++ cdata "publish" ++
      "</wp:status>\n\t\t<wp:post_parent>0</wp:post_parent>\n\t\t<wp:menu_order>0</wp:menu_order>\n\t\t<wp:post_type>" ++
      cdata "post" ++ "</wp:post_type>\n\t\t<wp:post_password>" ++ cdata "" ++
      "</wp:post_password>\n\t\t<wp:is_sticky>0</wp:is_sticky>" ++
      categoriesXml ++ tagsXml ++
      "\n\t\t<wp:postmeta>\n\t\t\t<wp:meta_key>" ++ cdata "_edit_last" ++
      "</wp:meta_key>\n\t\t\t<wp:meta_value>" ++ cdata "1" ++
      "</wp:meta_value>\n\t\t</wp:postmeta>\n\t\t<wp:postmeta>\n\t\t\t<wp:meta_key>" ++
      cdata "_wp_old_slug" ++ "</wp:meta_key>\n\t\t\t<wp:meta_value>" ++
      cdata (jsOrS post.uniqueId slug) ++
      "</wp:meta_value>\n\t\t</wp:postmeta>\n\t\t<wp:postmeta>\n\t\t\t<wp:meta_key>" ++
      cdata "_lnexun_import_source" ++ "</wp:meta_key>\n\t\t\t<wp:meta_value>" ++
      cdata "wayback_machine" ++
      "</wp:meta_value>\n\t\t</wp:postmeta>\n\t\t<wp:postmeta>\n\t\t\t<wp:meta_key>" ++
      cdata "_lnexun_original_timestamp" ++ "</wp:meta_key>\n\t\t\t<wp:meta_value>" ++
      cdata (jsOrS (postTs post) "") ++
      "</wp:meta_value>\n\t\t</wp:postmeta>\n\t\t<wp:postmeta>\n\t\t\t<wp:meta_key>" ++
      cdata "_lnexun_merged_from" ++ "</wp:meta_key>\n\t\t\t<wp:meta_value>" ++
      cdata (natToStr (jsOrNat (post.metadata.bind (·.mergedFrom)) 1)) ++
      "</wp:meta_value>\n\t\t</wp:postmeta>\n\t</item>", alc.2)

/-- `posts.map((post, index) => convertPostToWxr(post, index)).join('')`
with the `CREATED_USERS` mutation threaded through. -/
def postsXmlFold (env : RunEnv) : List Post → Nat → CreatedSt → Option (String × CreatedSt)
  | [], _, created => some ("", created)
  | p :: rest, i, created =>
    match convertPostToWxr env p i created with
    | none => none
    | some (xml, created') =>
      match postsXmlFold env rest (i + 1) created' with
      | none => none
      | some (xmls, created'') => some (xml ++ xmls, created'')

/-- `createWxrFile(posts, metadata)` of test_single.js.  `currentDate`
is the `new Date().toUTCString()` reading taken at the top of the
function — the document's own generation timestamp; `created` is the
`CREATED_USERS` pool at entry (the author declarations are rendered from
it *before* the items are converted, exactly as in the source). -/
def createWxrFile (env : RunEnv) (posts : List Post) (currentDate : String)
    (created : CreatedSt) : Option String :=
  let siteUrl := "https://lnexun.com"
  let siteName := "Natural Log of Exun"
  let allCategories := firstDedup (posts.flatMap (·.categories))
  let allTags := firstDedup (posts.flatMap (·.tags))
  let categoryDefs := String.join (allCategories.enum.map (fun p =>
    "\n\t<wp:category>\n\t\t<wp:term_id>" ++ natToStr (p.1 + 1) ++
    "</wp:term_id>\n\t\t<wp:category_nicename>" ++ escapeXml (taxonomySlug p.2) ++
    "</wp:category_nicename>\n\t\t<wp:category_parent></wp:category_parent>\n\t\t<wp:cat_name>" ++
    cdata p.2 ++ "</wp:cat_name>\n\t</wp:category>"))
  let tagDefs := String.join (allTags.enum.map (fun p =>
    "\n\t<wp:tag>\n\t\t<wp:term_id>" ++ natToStr (allCategories.length + p.1 + 1) ++
    "</wp:term_id>\n\t\t<wp:tag_slug>" ++ escapeXml (taxonomySlug p.2) ++
    "</wp:tag_slug>\n\t\t<wp:tag_name>" ++ cdata p.2 ++ "</wp:tag_name>\n\t</wp:tag>"))
  let allAuthors := AUTHORS.map (·.2) ++ created.map (·.2)
  let authorDefs := String.join (allAuthors.map (fun a =>
    "\n\t<wp:author><wp:author_id>" ++ natToStr a.id ++
    "</wp:author_id><wp:author_login>" ++ cdata a.login ++
    "</wp:author_login><wp:author_email>" ++ cdata a.email ++
    "</wp:author_email><wp:author_display_name>" ++ cdata a.display_name ++
    "</wp:author_display_name><wp:author_first_name>" ++ cdata a.first_name ++
    "</wp:author_first_name><wp:author_last_name>" ++ cdata a.last_name ++
    "</wp:author_last_name></wp:author>"))
  match postsXmlFold env posts 0 created with
  | none => none
  | some (postsXml, _) =>
    some (
      "<?xml version=\"1.0\" encoding=\"UTF-8\" ?>\n<!-- This is a WordPress eXtended RSS file generated by lnexun wayback scraper as seen on lnexun.com -->\n<!-- generator=\"WordPress/6.6.2\" created=\"" ++
      currentDate ++
      "\" -->\n<rss version=\"2.0\"\n\txmlns:excerpt=\"http://wordpress.org/export/1.2/excerpt/\"\n\txmlns:content=\"http://purl.org/rss/1.0/modules/content/\"\n\txmlns:wfw=\"http://wellformedweb.org/CommentAPI/\"\n\txmlns:dc=\"http://purl.org/dc/elements/1.1/\"\n\txmlns:wp=\"http://wordpress.org/export/1.2/\">\n\n<channel>\n\t<title>" ++
      siteName ++ "</title>\n\t<link>" ++ siteUrl ++
      "</link>\n\t<description>The Natural Log of Exun - Computer Club of DPS RKP</description>\n\t<pubDate>" ++
      currentDate ++
      "</pubDate>\n\t<language>en-US</language>\n\t<wp:wxr_version>1.2</wp:wxr_version>\n\t<wp:base_site_url>" ++
      siteUrl ++ "</wp:base_site_url>\n\t<wp:base_blog_url>" ++ siteUrl ++
      "</wp:base_blog_url>\n\n\t" ++ authorDefs ++ "\n\n\t" ++ categoryDefs ++
      "\n\t" ++ tagDefs ++ "\n\n\t<generator>WordPress/6.6.2</generator>\n\n\t" ++
      postsXml ++ "\n</channel>\n</rss>")

/-- The author first pass of `convertToWxr` (test_single.js lines
510-514): resolve every author once so the pool is grown before the
header is emitted.  The pool starts empty (`CREATED_USERS.clear()`). -/
def firstPassAuthors (posts : List Post) : CreatedSt :=
  posts.foldl (fun st p => (getAuthorLogin p.author st).2) []

/-- One serialization run of `convertToWxr` on an already filtered and
sorted post list: clear the dynamic pool, run the author first pass,
then build the WXR document. -/
def serializeRun (env : RunEnv) (posts : List Post) (currentDate : String) : Option String :=
  createWxrFile env posts currentDate (firstPassAuthors posts)

/-! ## Helper lemmas -/

theorem jsLowerChar_eq_of_ws (c : Char) (h : jsIsWs c = true) : jsLowerChar c = c := by
  unfold jsIsWs at h
  simp only [Bool.or_eq_true, beq_iff_eq] at h
  rcases h with ((((h | h) | h) | h) | h) | h <;> subst h <;> decide

theorem all_ws_of_trimList_eq_nil {l : List Char} (h : trimList l = []) :
    ∀ c ∈ l, jsIsWs c = true := by
  unfold trimList at h
  rw [List.reverse_eq_nil_iff, List.dropWhile_eq_nil_iff] at h
  have hdrop : ∀ c ∈ l.dropWhile jsIsWs, jsIsWs c = true := by
    intro c hc
    exact h c (List.mem_reverse.mpr hc)
  intro c hc
  rw [← List.takeWhile_append_dropWhile jsIsWs l, List.mem_append] at hc
  rcases hc with hc | hc
  · exact List.mem_takeWhile_imp hc
  · exact hdrop c hc

theorem jsToLower_eq_self_of_all_ws {s : String} (h : ∀ c ∈ s.data, jsIsWs c = true) :
    jsToLower s = s := by
  obtain ⟨d⟩ := s
  unfold jsToLower
  simp only
  rw [List.map_congr_left (fun c hc => jsLowerChar_eq_of_ws c (h c hc))]
  simp

theorem lookup_isSome_of_mem {k : String} {a : Author} :
    ∀ {l : List (String × Author)}, (k, a) ∈ l → (List.lookup k l).isSome = true := by
  intro l
  induction l with
  | nil => intro h; simp at h
  | cons kv rest ih =>
    intro h
    rcases List.mem_cons.mp h with h | h
    · rw [← h]; simp [List.lookup]
    · by_cases hk : k == kv.1
      · simp [List.lookup, hk]
      · simp only [List.lookup, hk]
        exact ih h

theorem mem_firstDedupAux_left (a : String) :
    ∀ (l acc : List String), a ∈ acc → a ∈ firstDedupAux acc l := by
  intro l
  induction l with
  | nil => intro acc h; simpa [firstDedupAux] using h
  | cons x xs ih =>
    intro acc h
    by_cases hx : x ∈ acc
    · simpa [firstDedupAux, hx] using ih acc h
    · simp only [firstDedupAux, if_neg hx]
      exact ih _ (by simp [h])

theorem mem_firstDedupAux (a : String) :
    ∀ (l acc : List String), a ∈ l → a ∈ firstDedupAux acc l := by
  intro l
  induction l with
  | nil => intro acc h; simp at h
  | cons x xs ih =>
    intro acc h
    rcases List.mem_cons.mp h with h | h
    · subst h
      by_cases hx : a ∈ acc
      · simpa [firstDedupAux, hx] using mem_firstDedupAux_left a xs acc hx
      · simp only [firstDedupAux, if_neg hx]
        exact mem_firstDedupAux_left a xs _ (by simp)
    · by_cases hx : x ∈ acc
      · simpa [firstDedupAux, hx] using ih acc h
      · simp only [firstDedupAux, if_neg hx]
        exact ih _ h

theorem mem_firstDedup {a : String} {l : List String} (h : a ∈ l) : a ∈ firstDedup l :=
  mem_firstDedupAux a l [] h

theorem insertByLenDesc_perm (x : Post) (l : List Post) :
    (insertByLenDesc x l).Perm (x :: l) := by
  induction l with
  | nil => simp [insertByLenDesc]
  | cons y ys ih =>
    by_cases h : postContentLen x ≥ postContentLen y
    · simp [insertByLenDesc, h]
    · simp only [insertByLenDesc, if_neg h]
      exact (ih.cons y).trans (List.Perm.swap x y ys)

theorem sortByLenDesc_perm (l : List Post) : (sortByLenDesc l).Perm l := by
  induction l with
  | nil => simp [sortByLenDesc]
  | cons x xs ih => exact (insertByLenDesc_perm x (sortByLenDesc xs)).trans (ih.cons x)

theorem sorted_insertByLenDesc (x : Post) (l : List Post)
    (h : List.Sorted (fun a b => postContentLen b ≤ postContentLen a) l) :
    List.Sorted (fun a b => postContentLen b ≤ postContentLen a) (insertByLenDesc x l) := by
  induction l with
  | nil => simp [insertByLenDesc]
  | cons y ys ih =>
    rw [List.sorted_cons] at h
    by_cases hxy : postContentLen x ≥ postContentLen y
    · simp only [insertByLenDesc, if_pos hxy]
      rw [List.sorted_cons]
      refine ⟨?_, List.sorted_cons.mpr h⟩
      intro b hb
      rcases List.mem_cons.mp hb with hb | hb
      · subst hb; exact hxy
      · exact le_trans (h.1 b hb) hxy
    · simp only [insertByLenDesc, if_neg hxy]
      rw [List.sorted_cons]
      refine ⟨?_, ih h.2⟩
      intro b hb
      have := (insertByLenDesc_perm x ys).mem_iff.mp hb
      rcases List.mem_cons.mp this with hb' | hb'
      · subst hb'; omega
      · exact h.1 b hb'

theorem sorted_sortByLenDesc (l : List Post) :
    List.Sorted (fun a b => postContentLen b ≤ postContentLen a) (sortByLenDesc l) := by
  induction l with
  | nil => simp [sortByLenDesc]
  | cons x xs ih => exact sorted_insertByLenDesc x (sortByLenDesc xs) ih

/-! ## Claim C5: idempotence of the Markup Normalizer -/

/-- Claim C5, counterexample: the normalizer is *not* idempotent on every
input.  On `https://https://https://a` one pass collapses only the first
doubled protocol (the global regex resumes scanning after the replaced
span), leaving `https://https://a`, which a second pass rewrites again. -/
theorem c5_counterexample :
    cleanWebArchiveUrls (cleanWebArchiveUrls "https://https://https://a") ≠
      cleanWebArchiveUrls "https://https://https://a" := by
  decide

/-- Claim C5 (amended): `cleanWebArchiveUrls` is idempotent on every
input whose one-pass image contains no residual occurrence of any of the
nine substitution patterns — in particular on archive-wrapped URLs whose
captured suffix is itself archive-wrapped, which a single pass fully
unwraps (see the witness). -/
theorem cleanWebArchiveUrls_idempotent_on_fixed (x : String)
    (h : archiveCleanFixed (cleanWebArchiveUrls x) = true) :
    cleanWebArchiveUrls (cleanWebArchiveUrls x) = cleanWebArchiveUrls x :=
  cleanWebArchiveUrls_eq_of_fixed _ h

/-- Witness for `cleanWebArchiveUrls_idempotent_on_fixed`: a nested
archive-wrapped URL (an archive URL whose captured suffix is itself an
archive-wrapped URL). -/
theorem cleanWebArchiveUrls_idempotent_on_fixed_witness :
    archiveCleanFixed (cleanWebArchiveUrls "https://web.archive.org/web/20230322120550if_/https://web.archive.org/web/20230322120551/https://example.com/a") = true ∧
    cleanWebArchiveUrls (cleanWebArchiveUrls "https://web.archive.org/web/20230322120550if_/https://web.archive.org/web/20230322120551/https://example.com/a") =
      cleanWebArchiveUrls "https://web.archive.org/web/20230322120550if_/https://web.archive.org/web/20230322120551/https://example.com/a" :=
  ⟨by decide, cleanWebArchiveUrls_idempotent_on_fixed _ (by decide)⟩

/-! ## Claim C7: extractor sentinel on pre-element failure -/

/-- Claim C7: `extractWordPressPosts` never raises outward (it is a total
function of the document oracle); whenever the body of its outer `try`
fails — which can only happen before per-element processing, since
per-element and per-selector failures are caught locally — the result is
the one-element sentinel list, and the sentinel carries the failure
message both inside its `content` field and in `metadata.error`. -/
theorem extractWordPressPosts_error_sentinel (doc : Doc) (url timestamp nowIso msg : String)
    (h : extractCore doc url timestamp nowIso = .error msg) :
    extractWordPressPosts doc url timestamp nowIso = [errorPost msg url timestamp nowIso] ∧
    (errorPost msg url timestamp nowIso).content =
      some ("Failed to extract content: " ++ msg) ∧
    (errorPost msg url timestamp nowIso).metadata.bind (·.error) = some msg := by
  refine ⟨?_, rfl, rfl⟩
  unfold extractWordPressPosts
  rw [h]

/-- A document whose `$` is not a function: it fails the first check of
the `try` body. -/
def c7BadDoc : Doc := { dollarIsFunction := false, select := fun _ => .ok [] }

/-- Witness for `extractWordPressPosts_error_sentinel`. -/
theorem extractWordPressPosts_error_sentinel_witness :
    extractCore c7BadDoc "u" "t" "n" = .error "Cheerio $ function is not available" ∧
    extractWordPressPosts c7BadDoc "u" "t" "n" =
      [errorPost "Cheerio $ function is not available" "u" "t" "n"] :=
  ⟨rfl, (extractWordPressPosts_error_sentinel c7BadDoc "u" "t" "n"
    "Cheerio $ function is not available" rfl).1⟩

/-! ## Claim C10: statistics on an empty consolidated set -/

/-- Claim C10: when consolidation yields zero unique posts the statistics
block divides `0` by `0`, so `averageContentLength` is `NaN` (not `0`),
both ends of the date range are `null`, and the computation still
completes (the model is a total function). -/
theorem consolidationStats_zero_posts (t s b d : Nat) :
    (consolidationStats [] t s b d).averageContentLength = JSNum.nan ∧
    (consolidationStats [] t s b d).earliest = none ∧
    (consolidationStats [] t s b d).latest = none := by
  refine ⟨?_, rfl, rfl⟩
  simp [consolidationStats, jsRound, jsDivQ]

/-! ## Claim C8: stability of the grouping key -/

/-- A record whose id is a placeholder and whose title, content and
timestamp are all absent: `generatePostId` reaches the `Date.now()`
fallback. -/
def c8Post : Post := { id := some "page-content", metadata := some { timestamp := none } }

/-- Claim C8, counterexample: two calls of `generatePostId` on the
identical record return different keys when the clock has advanced,
because the final fallback embeds the `Date.now()` reading into the
key. -/
theorem c8_counterexample :
    generatePostId (fun _ => "") 0 c8Post ≠ generatePostId (fun _ => "") 1 c8Post := by
  decide

/-- The records on which `generatePostId` never consults the clock: a
usable own id, a title slug longer than 3, truthy content, or a truthy
capture timestamp. -/
def generatePostIdStable (post : Post) : Bool :=
  usesOwnId post ||
  (hasUsableTitle post && decide (3 < (consolidationTitleSlug (jsGetD post.title)).length)) ||
  jsTruthy post.content || jsTruthy (postTs post)

theorem generatePostIdFallback_stable (md5hex : String → String) (post : Post)
    (h : jsTruthy post.content = true ∨ jsTruthy (postTs post) = true) (n1 n2 : Nat) :
    generatePostIdFallback md5hex n1 post = generatePostIdFallback md5hex n2 post := by
  unfold generatePostIdFallback
  by_cases hc : jsTruthy post.content = true
  · rw [if_pos hc, if_pos hc]
  · have ht : jsTruthy (postTs post) = true := h.resolve_left hc
    rw [if_neg hc, if_neg hc, if_pos ht, if_pos ht]

/-- Claim C8 (amended): `generatePostId` is stable under repeated calls
on the identical record *provided* the record offers at least one
clock-free key source (own id, usable title slug, content, or capture
timestamp); a record with a placeholder id and none of those — exactly
the combination named in the claim — falls back to `Date.now()` and is
not stable (see the counterexample). -/
theorem generatePostId_stable (md5hex : String → String) (post : Post)
    (h : generatePostIdStable post = true) (n1 n2 : Nat) :
    generatePostId md5hex n1 post = generatePostId md5hex n2 post := by
  unfold generatePostId
  by_cases h1 : usesOwnId post = true
  · rw [if_pos h1, if_pos h1]
  · have hA : usesOwnId post = false := Bool.eq_false_iff.mpr h1
    rw [if_neg h1, if_neg h1]
    by_cases h2 : hasUsableTitle post = true
    · rw [if_pos h2, if_pos h2]
      by_cases h3 : 3 < (consolidationTitleSlug (jsGetD post.title)).length
      · rw [if_pos h3, if_pos h3]
      · rw [if_neg h3, if_neg h3]
        apply generatePostIdFallback_stable
        have hdec : decide (3 < (consolidationTitleSlug (jsGetD post.title)).length) = false :=
          decide_eq_false h3
        simp only [generatePostIdStable, hA, hdec, Bool.and_false, Bool.false_or,
          Bool.or_eq_true] at h
        exact h
    · rw [if_neg h2, if_neg h2]
      apply generatePostIdFallback_stable
      have hB : hasUsableTitle post = false := Bool.eq_false_iff.mpr h2
      simp only [generatePostIdStable, hA, hB, Bool.false_and, Bool.false_or,
        Bool.or_eq_true] at h
      exact h

/-- A record with a usable title slug (and a placeholder id). -/
def c8WitnessPost : Post := { id := some "page-content", title := some "Hello World" }

/-- Witness for `generatePostId_stable`. -/
theorem generatePostId_stable_witness :
    generatePostIdStable c8WitnessPost = true ∧
    generatePostId (fun _ => "") 0 c8WitnessPost = generatePostId (fun _ => "") 1 c8WitnessPost :=
  ⟨by decide, generatePostId_stable (fun _ => "") c8WitnessPost (by decide) 0 1⟩

/-! ## Claims C4 and C9: merging a duplicate group -/

/-- The union order the claim describes, following the spec's words:
categories in first-seen order *across the group as given*, duplicates
removed by value equality.  (The code instead collects them after the
in-place sort; see the counterexample.) -/
def specFirstSeenCategories (posts : List Post) : List String :=
  firstDedup (posts.flatMap (·.categories))

def c4PostA : Post := { content := some "x", categories := ["A"] }

def c4PostB : Post := { content := some "0123456789", categories := ["B"] }

/-- Claim C4, counterexample: for a two-member group whose first-seen
member is the shorter one, the merged categories come out in
sorted-by-content-length order (`["B", "A"]`), not in first-seen order
across the group (`["A", "B"]`). -/
theorem c4_counterexample :
    (mergePostsRun [c4PostA, c4PostB]).map (fun r => r.1.categories) = some ["B", "A"] ∧
    specFirstSeenCategories [c4PostA, c4PostB] = ["A", "B"] := by
  decide

theorem sortByLenDesc_ne_nil (p1 p2 : Post) (ps : List Post) :
    ∃ b rest, sortByLenDesc (p1 :: p2 :: ps) = b :: rest := by
  rcases hs : sortByLenDesc (p1 :: p2 :: ps) with _ | ⟨b, rest⟩
  · have hp := sortByLenDesc_perm (p1 :: p2 :: ps)
    rw [hs] at hp
    simpa using hp.length_eq
  · exact ⟨b, rest, rfl⟩

theorem mergePostsRun_eq {p1 p2 : Post} {ps : List Post} {b : Post} {rest : List Post}
    (hb : sortByLenDesc (p1 :: p2 :: ps) = b :: rest) :
    mergePostsRun (p1 :: p2 :: ps) =
      some (mergeUpdate b (b :: rest) (p1 :: p2 :: ps).length,
            mergeUpdate b (b :: rest) (p1 :: p2 :: ps).length :: rest) := by
  simp only [mergePostsRun, hb]

/-- Claim C4 (amended): for every group of more than one post, the
merged post's categories and tags are exactly the union of all members'
categories and tags with duplicates removed by value equality — so
nothing present in any member is lost — and `metadata.mergedFrom` equals
the group size exactly; the union's order, however, is first-seen order
over the group *after* its in-place reordering by descending
`content.length + fullHtml.length`, not over the group as given. -/
theorem mergePosts_union_after_sort (posts : List Post) (h : 2 ≤ posts.length) :
    ∃ best rest, mergePostsRun posts = some (best, best :: rest) ∧
      best.categories = firstDedup ((sortByLenDesc posts).flatMap (·.categories)) ∧
      best.tags = firstDedup ((sortByLenDesc posts).flatMap (·.tags)) ∧
      (∀ p ∈ posts, ∀ c ∈ p.categories, c ∈ best.categories) ∧
      (∀ p ∈ posts, ∀ t ∈ p.tags, t ∈ best.tags) ∧
      (∃ md, best.metadata = some md ∧ md.mergedFrom = some posts.length) := by
  match posts, h with
  | p1 :: p2 :: ps, _ =>
    obtain ⟨b, rest, hb⟩ := sortByLenDesc_ne_nil p1 p2 ps
    have hmem : ∀ p ∈ p1 :: p2 :: ps, p ∈ b :: rest := by
      intro p hp
      have := (sortByLenDesc_perm (p1 :: p2 :: ps)).mem_iff.mpr hp
      rwa [hb] at this
    refine ⟨_, rest, mergePostsRun_eq hb, by rw [hb]; rfl, by rw [hb]; rfl, ?_, ?_,
      ⟨_, rfl, rfl⟩⟩
    · intro p hp c hc
      exact mem_firstDedup (List.mem_flatMap.mpr ⟨p, hmem p hp, hc⟩)
    · intro p hp t ht
      exact mem_firstDedup (List.mem_flatMap.mpr ⟨p, hmem p hp, ht⟩)

/-- Witness for `mergePosts_union_after_sort`. -/
theorem mergePosts_union_after_sort_witness :
    2 ≤ ([c4PostA, c4PostB] : List Post).length ∧
    (∃ best rest, mergePostsRun [c4PostA, c4PostB] = some (best, best :: rest) ∧
      best.categories = firstDedup ((sortByLenDesc [c4PostA, c4PostB]).flatMap (·.categories)) ∧
      best.tags = firstDedup ((sortByLenDesc [c4PostA, c4PostB]).flatMap (·.tags)) ∧
      (∀ p ∈ [c4PostA, c4PostB], ∀ c ∈ p.categories, c ∈ best.categories) ∧
      (∀ p ∈ [c4PostA, c4PostB], ∀ t ∈ p.tags, t ∈ best.tags) ∧
      (∃ md, best.metadata = some md ∧
        md.mergedFrom = some ([c4PostA, c4PostB] : List Post).length)) :=
  ⟨by decide, mergePosts_union_after_sort [c4PostA, c4PostB] (by decide)⟩

/-- A singleton group whose metadata has no `mergedFrom`. -/
def c9Post : Post := { title := some "T", metadata := some {} }

/-- Claim C9, counterexample: on a singleton group `mergePosts` returns
the sole member completely untouched — in particular `metadata.mergedFrom`
and `metadata.sourceTimestamps` are *not* overwritten (they stay
absent), contradicting the claim's unconditional side-effect clause. -/
theorem c9_singleton_counterexample :
    mergePostsRun [c9Post] = some (c9Post, [c9Post]) ∧
    c9Post.metadata.bind (·.mergedFrom) = none ∧
    c9Post.metadata.bind (·.sourceTimestamps) = none := by
  decide

/-- Claim C9 (amended): for every group of at least two posts,
`mergePosts` reorders its input array in place into descending
`content.length + fullHtml.length` order (stably), returns the first
element of that order — a member of maximal combined length — with
every field other than `categories`, `tags` and `metadata` unchanged,
and overwrites that element's `categories`, `tags`,
`metadata.mergedFrom` and `metadata.sourceTimestamps` in place (the
array afterwards holds the mutated element at index 0).  A singleton
group is returned unchanged, with no reordering and no overwriting. -/
theorem mergePosts_frame_and_reorder (posts : List Post) (h : 2 ≤ posts.length) :
    ∃ b rest best, sortByLenDesc posts = b :: rest ∧
      mergePostsRun posts = some (best, best :: rest) ∧
      (b :: rest).Perm posts ∧
      List.Sorted (fun x y => postContentLen y ≤ postContentLen x) (b :: rest) ∧
      (∀ p ∈ posts, postContentLen p ≤ postContentLen b) ∧
      best.id = b.id ∧ best.classes = b.classes ∧ best.title = b.title ∧
      best.content = b.content ∧ best.excerpt = b.excerpt ∧ best.date = b.date ∧
      best.author = b.author ∧ best.permalink = b.permalink ∧
      best.fullHtml = b.fullHtml ∧ best.uniqueId = b.uniqueId ∧
      best.categories = firstDedup ((b :: rest).flatMap (·.categories)) ∧
      best.tags = firstDedup ((b :: rest).flatMap (·.tags)) ∧
      (∃ md, best.metadata = some md ∧ md.mergedFrom = some posts.length ∧
        md.sourceTimestamps = some ((b :: rest).filterMap (fun p =>
          match postTs p with
          | some t => if t == "" then none else some t
          | none => none))) := by
  match posts, h with
  | p1 :: p2 :: ps, _ =>
    obtain ⟨b, rest, hb⟩ := sortByLenDesc_ne_nil p1 p2 ps
    have hperm : (b :: rest).Perm (p1 :: p2 :: ps) := by
      rw [← hb]; exact sortByLenDesc_perm _
    have hsorted : List.Sorted (fun x y => postContentLen y ≤ postContentLen x) (b :: rest) := by
      rw [← hb]; exact sorted_sortByLenDesc _
    refine ⟨b, rest, _, hb, mergePostsRun_eq hb, hperm, hsorted, ?_, rfl, rfl, rfl, rfl,
      rfl, rfl, rfl, rfl, rfl, rfl, rfl, rfl, ⟨_, rfl, rfl, rfl⟩⟩
    intro p hp
    have hp' : p ∈ b :: rest := hperm.mem_iff.mpr hp
    rcases List.mem_cons.mp hp' with hp' | hp'
    · subst hp'; exact le_refl _
    · exact List.rel_of_sorted_cons hsorted p hp'

/-- Witness for `mergePosts_frame_and_reorder`. -/
theorem mergePosts_frame_and_reorder_witness :
    2 ≤ ([c4PostB, c4PostA] : List Post).length ∧
    (∃ b rest best, sortByLenDesc [c4PostB, c4PostA] = b :: rest ∧
      mergePostsRun [c4PostB, c4PostA] = some (best, best :: rest) ∧
      (b :: rest).Perm [c4PostB, c4PostA] ∧
      List.Sorted (fun x y => postContentLen y ≤ postContentLen x) (b :: rest) ∧
      (∀ p ∈ [c4PostB, c4PostA], postContentLen p ≤ postContentLen b) ∧
      best.id = b.id ∧ best.classes = b.classes ∧ best.title = b.title ∧
      best.content = b.content ∧ best.excerpt = b.excerpt ∧ best.date = b.date ∧
      best.author = b.author ∧ best.permalink = b.permalink ∧
      best.fullHtml = b.fullHtml ∧ best.uniqueId = b.uniqueId ∧
      best.categories = firstDedup ((b :: rest).flatMap (·.categories)) ∧
      best.tags = firstDedup ((b :: rest).flatMap (·.tags)) ∧
      (∃ md, best.metadata = some md ∧
        md.mergedFrom = some ([c4PostB, c4PostA] : List Post).length ∧
        md.sourceTimestamps = some ((b :: rest).filterMap (fun p =>
          match postTs p with
          | some t => if t == "" then none else some t
          | none => none)))) :=
  ⟨by decide, mergePosts_frame_and_reorder [c4PostB, c4PostA] (by decide)⟩

/-! ## Claim C2: distinctness of identity ids -/

/-- One resolution step: the pool after `getAuthorLogin`. -/
def authStep (st : CreatedSt) (s : String) : CreatedSt := (getAuthorLogin s st).2

/-- The dynamic pool after resolving a list of author strings within one
export run, starting from the empty pool. -/
def runAuthors (inputs : List String) : CreatedSt := inputs.foldl authStep []

/-- All identity ids visible after a run: the fixed pool followed by the
dynamic pool. -/
def allIds (st : CreatedSt) : List Nat :=
  AUTHORS.map (fun kv => kv.2.id) ++ st.map (fun kv => kv.2.id)

/-- Does resolving this author string synthesize a new identity
(non-empty input with no match against the fixed table)? -/
def isSynthInput (s : String) : Bool :=
  !(s == "" || jsTrim s == "") && (findAuthorMatch (jsTrim (jsToLower s))).isNone

/-- The usernames a run synthesizes, in call order. -/
def synthKeys (inputs : List String) : List String :=
  (inputs.filter isSynthInput).map synthUsername

theorem authStep_eq_of_not_synth (st : CreatedSt) (s : String)
    (h : isSynthInput s = false) : authStep st s = st := by
  unfold authStep getAuthorLogin
  by_cases hg : (s == "" || jsTrim s == "") = true
  · rw [if_pos hg]
  · rw [if_neg hg]
    have hguard : (s == "" || jsTrim s == "") = false := Bool.eq_false_iff.mpr hg
    unfold isSynthInput at h
    rw [hguard] at h
    simp only [Bool.not_false, Bool.true_and] at h
    rcases hfm : findAuthorMatch (jsTrim (jsToLower s)) with _ | login
    · rw [hfm] at h; simp at h
    · simp only [hfm]

theorem authStep_eq_of_synth (st : CreatedSt) (s : String)
    (h : isSynthInput s = true) :
    authStep st s = mapSet st (synthUsername s)
      { id := 1000 + st.length + 1
        login := synthUsername s
        email := synthEmail s
        display_name := jsTrim s
        first_name := (firstLastOf (jsTrim s)).1
        last_name := (firstLastOf (jsTrim s)).2 } := by
  unfold isSynthInput at h
  rw [Bool.and_eq_true] at h
  have hg : (s == "" || jsTrim s == "") = false := by
    have h1 := h.1; rwa [Bool.not_eq_true'] at h1
  have hm : findAuthorMatch (jsTrim (jsToLower s)) = none :=
    Option.isNone_iff_eq_none.mp h.2
  unfold authStep getAuthorLogin
  rw [if_neg (by simp [hg])]
  simp only [hm]
  unfold createNewUser
  rw [if_neg (by simp [hg])]

theorem mem_keys_of_lookup_isSome {k : String} :
    ∀ {st : CreatedSt}, (List.lookup k st).isSome = true → k ∈ st.map (fun kv => kv.1) := by
  intro st
  induction st with
  | nil => intro h; simp [List.lookup] at h
  | cons kv rest ih =>
    obtain ⟨k1, v1⟩ := kv
    intro h
    by_cases hk : k == k1
    · rw [beq_iff_eq] at hk
      simp [hk]
    · simp only [List.lookup, hk] at h
      simp only [List.map_cons]
      exact List.mem_cons.mpr (Or.inr (ih h))

theorem mapSet_fresh {st : CreatedSt} {k : String} {v : Author}
    (h : k ∉ st.map (fun kv => kv.1)) : mapSet st k v = st ++ [(k, v)] := by
  unfold mapSet
  rw [if_neg]
  intro hs
  exact h (mem_keys_of_lookup_isSome hs)

theorem runAuthors_from_ids (inputs : List String) :
    ∀ st : CreatedSt,
      st.map (fun kv => kv.2.id) = List.range' 1001 st.length →
      (st.map (fun kv => kv.1) ++ synthKeys inputs).Nodup →
      (inputs.foldl authStep st).map (fun kv => kv.2.id) =
        List.range' 1001 (inputs.foldl authStep st).length := by
  induction inputs with
  | nil => intro st h1 _; simpa using h1
  | cons s rest ih =>
    intro st h1 h2
    rw [List.foldl_cons]
    by_cases hs : isSynthInput s = true
    · have hkeys : synthKeys (s :: rest) = synthUsername s :: synthKeys rest := by
        simp [synthKeys, List.filter_cons, hs]
      rw [hkeys] at h2
      have hfresh : synthUsername s ∉ st.map (fun kv => kv.1) := by
        rw [List.nodup_append] at h2
        intro hmem
        exact h2.2.2 hmem (by simp)
      have happ : authStep st s = st ++ [(synthUsername s,
          { id := 1000 + st.length + 1
            login := synthUsername s
            email := synthEmail s
            display_name := jsTrim s
            first_name := (firstLastOf (jsTrim s)).1
            last_name := (firstLastOf (jsTrim s)).2 })] := by
        rw [authStep_eq_of_synth st s hs, mapSet_fresh hfresh]
      rw [happ]
      apply ih
      · rw [List.map_append, h1]
        simp only [List.map_cons, List.map_nil, List.length_append, List.length_cons,
          List.length_nil]
        rw [List.range'_concat]
        congr 2
        omega
      · rw [List.map_append]
        have : (st.map (fun kv => kv.1) ++ [synthUsername s]) ++ synthKeys rest =
            st.map (fun kv => kv.1) ++ (synthUsername s :: synthKeys rest) := by
          simp
        simp only [List.map_cons, List.map_nil]
        rw [this]
        exact h2
    · have hs' : isSynthInput s = false := Bool.eq_false_iff.mpr hs
      rw [authStep_eq_of_not_synth st s hs']
      apply ih st h1
      have hkeys : synthKeys (s :: rest) = synthKeys rest := by
        simp [synthKeys, List.filter_cons, hs']
      rwa [hkeys] at h2

/-- Claim C2 (amended): after every call of `getAuthorLogin` in a run —
that is, after any prefix of the resolved inputs — the ids of the fixed
`AUTHORS` table together with the ids of the dynamic `CREATED_USERS` pool
are pairwise distinct, *provided* no two synthesizing calls of the run
share a synthesized username.  (When the same unmatched author string is
resolved twice, `Map.set` overwrites the earlier entry with a fresh id
while the pool size stays put, and the next synthesis reuses the
overwritten id — see the counterexample.) -/
theorem getAuthorLogin_ids_nodup (inputs : List String)
    (h : (synthKeys inputs).Nodup) (n : Nat) :
    (allIds (runAuthors (inputs.take n))).Nodup := by
  have hsub : (synthKeys (inputs.take n)).Sublist (synthKeys inputs) :=
    List.Sublist.map _ (List.Sublist.filter _ (List.take_sublist n inputs))
  have hn : (synthKeys (inputs.take n)).Nodup := h.sublist hsub
  have hids : (runAuthors (inputs.take n)).map (fun kv => kv.2.id) =
      List.range' 1001 (runAuthors (inputs.take n)).length :=
    runAuthors_from_ids (inputs.take n) [] (by simp) (by simpa using hn)
  unfold allIds
  rw [List.nodup_append]
  refine ⟨by decide, ?_, ?_⟩
  · rw [hids]
    exact List.nodup_range' _ _
  · intro a ha hb
    have h73 : ∀ x ∈ AUTHORS.map (fun kv => kv.2.id), x ≤ 73 := by decide
    have ha' := h73 a ha
    rw [hids] at hb
    have := List.mem_range'_1.mp hb
    omega

/-- Two distinct never-matching author strings. -/
def c2WitnessInputs : List String := ["Aaa Bbb", "Ccc Ddd"]

/-- Witness for `getAuthorLogin_ids_nodup`. -/
theorem getAuthorLogin_ids_nodup_witness :
    (synthKeys c2WitnessInputs).Nodup ∧
    (allIds (runAuthors (c2WitnessInputs.take 2))).Nodup :=
  ⟨by decide, getAuthorLogin_ids_nodup c2WitnessInputs (by decide) 2⟩

/-- Claim C2, counterexample: resolving the same unmatched author string
twice and then a different unmatched string produces two pool entries
with the same id (1002) — the overwriting second synthesis bumped the
first entry's id without growing the pool, so the third synthesis
reassigned 1002. -/
theorem c2_counterexample :
    ¬ (allIds (runAuthors ["Aaa Bbb", "Aaa Bbb", "Ccc Ddd"])).Nodup := by
  decide

/-! ## Claim C3: matching against login keys -/

/-- Claim C3, counterexample: `"MadhavNarayan"` is, after trimming, a
case-insensitive exact match of the login key `MadhavNarayan` of the
fixed table; yet the resolver lower-cases the input before the
case-sensitive `AUTHORS[cleanAuthor]` property lookup, misses every
matching phase, and synthesizes a new identity (the pool grows). -/
theorem c3_counterexample :
    getAuthorLogin "MadhavNarayan" [] ≠ ("MadhavNarayan", ([] : CreatedSt)) ∧
    ((getAuthorLogin "MadhavNarayan" []).2).length = 1 := by
  decide

/-- Claim C3 (amended): for every author string whose cleaned form
(lower-cased then trimmed, which is what the code computes) *equals*
some login key of the pre-seeded table, the resolver returns that login
and leaves the dynamic pool untouched.  Since the cleaned form never
contains upper-case ASCII, this covers exactly the all-lower-case keys;
the two keys with upper-case letters, `MadhavNarayan` and
`TanayVardhan`, are unreachable by the lookup and synthesize new
identities instead (see the counterexample). -/
theorem getAuthorLogin_lowercase_key (s k : String) (a : Author) (st : CreatedSt)
    (hmem : (k, a) ∈ AUTHORS) (hs : jsTrim (jsToLower s) = k) :
    getAuthorLogin s st = (k, st) := by
  have hk0 : k ≠ "" := by
    have hall : ∀ kv ∈ AUTHORS, kv.1 ≠ "" := by decide
    exact hall (k, a) hmem
  have hguard : (s == "" || jsTrim s == "") = false := by
    rw [Bool.or_eq_false_iff]
    constructor
    · rw [beq_eq_false_iff_ne]
      intro hs0
      subst hs0
      exact hk0 (by simpa using hs.symm)
    · rw [beq_eq_false_iff_ne]
      intro htr
      have htr' : trimList s.data = [] := by
        have h2 := congrArg String.data htr
        simpa [jsTrim] using h2
      have hws : ∀ c ∈ s.data, jsIsWs c = true := all_ws_of_trimList_eq_nil htr'
      have hlow : jsToLower s = s := jsToLower_eq_self_of_all_ws hws
      rw [hlow] at hs
      exact hk0 (hs.symm.trans htr)
  have hfm : findAuthorMatch k = some k := by
    unfold findAuthorMatch
    rw [if_pos (lookup_isSome_of_mem hmem)]
  unfold getAuthorLogin
  rw [if_neg (by simp [hguard])]
  simp only [hs, hfm]

def c3Author : Author :=
  { id := 20, login := "aurojit", email := "aurojit@gmail.com"
    display_name := "aurojit", first_name := "Aurojit", last_name := "Panda" }

/-- Witness for `getAuthorLogin_lowercase_key`. -/
theorem getAuthorLogin_lowercase_key_witness :
    (("aurojit", c3Author) ∈ AUTHORS) ∧ jsTrim (jsToLower "AUROJIT") = "aurojit" ∧
    getAuthorLogin "AUROJIT" [] = ("aurojit", ([] : CreatedSt)) :=
  ⟨by decide, by decide,
    getAuthorLogin_lowercase_key "AUROJIT" "aurojit" c3Author [] (by decide) (by decide)⟩

/-! ## Claim C1: run-to-run determinism of serialization -/

/-- Is `parseInt` of the capture timestamp a usable (non-`NaN`,
non-zero) number? -/
def tsParseNonzero (post : Post) : Bool :=
  match parseIntJS (jsSubstringFrom (jsGetD (postTs post)) (-8)) with
  | some v => !(v == 0)
  | none => false

/-- The posts on which `extractPostId` never consults the clock or the
RNG: one of its first three branches applies, or the timestamp branch
applies with a usable `parseInt` result. -/
def extractPostIdDet (post : Post) : Bool :=
  (jsTruthy post.id && idAllDigits (jsGetD post.id)) ||
  (jsTruthy post.id && jsIncludes (jsGetD post.id) "post-" &&
    (findPostNum (jsGetD post.id)).isSome) ||
  (jsTruthy post.classes && jsIncludes (jsGetD post.classes) "post-" &&
    (findPostNum (jsGetD post.classes)).isSome) ||
  (jsTruthy (postTs post) && tsParseNonzero post)

/-- The posts whose WXR item is independent of the run environment: a
deterministic post-id source and a present capture timestamp (so the
publish date is not read from the wall clock). -/
def wxrDeterministicPost (post : Post) : Bool :=
  extractPostIdDet post && jsTruthy (postTs post)

theorem extractPostId_env_indep (post : Post) (h : extractPostIdDet post = true)
    (e1 e2 : RunEnv) : extractPostId e1 post = extractPostId e2 post := by
  unfold extractPostId
  by_cases h1 : (jsTruthy post.id && idAllDigits (jsGetD post.id)) = true
  · rw [if_pos h1, if_pos h1]
  · rw [if_neg h1, if_neg h1]
    by_cases h2 : (jsTruthy post.id && jsIncludes (jsGetD post.id) "post-" &&
        (findPostNum (jsGetD post.id)).isSome) = true
    · rw [if_pos h2, if_pos h2]
    · rw [if_neg h2, if_neg h2]
      by_cases h3 : (jsTruthy post.classes && jsIncludes (jsGetD post.classes) "post-" &&
          (findPostNum (jsGetD post.classes)).isSome) = true
      · rw [if_pos h3, if_pos h3]
      · rw [if_neg h3, if_neg h3]
        have h4 : (jsTruthy (postTs post) && tsParseNonzero post) = true := by
          have hA := Bool.eq_false_iff.mpr h1
          have hB := Bool.eq_false_iff.mpr h2
          have hC := Bool.eq_false_iff.mpr h3
          simpa [extractPostIdDet, hA, hB, hC] using h
        rw [Bool.and_eq_true] at h4
        rw [if_pos h4.1, if_pos h4.1]
        have h5 := h4.2
        unfold tsParseNonzero at h5
        rcases hv : parseIntJS (jsSubstringFrom (jsGetD (postTs post)) (-8)) with _ | v
        · rw [hv] at h5; simp at h5
        · rw [hv] at h5
          have h6 : ¬ v = 0 := by simpa using h5
          simp only [hv]
          rw [if_neg (by simpa using h6), if_neg (by simpa using h6)]

theorem formatWordPressDate_env_indep (ts : Option String) (h : jsTruthy ts = true)
    (e1 e2 : RunEnv) : formatWordPressDate e1 ts = formatWordPressDate e2 ts := by
  unfold formatWordPressDate
  rw [h]
  rfl

theorem convertPostToWxr_env_indep (post : Post) (h : wxrDeterministicPost post = true)
    (e1 e2 : RunEnv) (i : Nat) (created : CreatedSt) :
    convertPostToWxr e1 post i created = convertPostToWxr e2 post i created := by
  unfold wxrDeterministicPost at h
  rw [Bool.and_eq_true] at h
  unfold convertPostToWxr
  rw [extractPostId_env_indep post h.1 e1 e2,
    formatWordPressDate_env_indep (postTs post) h.2 e1 e2]

theorem postsXmlFold_env_indep (posts : List Post)
    (h : ∀ p ∈ posts, wxrDeterministicPost p = true) (e1 e2 : RunEnv) :
    ∀ (i : Nat) (created : CreatedSt),
      postsXmlFold e1 posts i created = postsXmlFold e2 posts i created := by
  induction posts with
  | nil => intro i created; rfl
  | cons p rest ih =>
    intro i created
    have hp := h p (by simp)
    have hrest : ∀ q ∈ rest, wxrDeterministicPost q = true := fun q hq => h q (by simp [hq])
    unfold postsXmlFold
    rw [convertPostToWxr_env_indep p hp e1 e2 i created]
    rcases hc : convertPostToWxr e2 p i created with _ | ⟨xml, created'⟩
    · rfl
    · simp only [hc]
      rw [ih hrest (i + 1) created']

theorem createWxrFile_env_indep (posts : List Post) (currentDate : String)
    (created : CreatedSt) (h : ∀ p ∈ posts, wxrDeterministicPost p = true)
    (e1 e2 : RunEnv) :
    createWxrFile e1 posts currentDate created = createWxrFile e2 posts currentDate created := by
  unfold createWxrFile
  rw [postsXmlFold_env_indep posts h e1 e2 0 created]

/-- Claim C1 (amended): two serialization runs on the same filtered and
sorted post list and the same pre-seeded identity table, each starting
with an empty dynamic pool and stamped with the same generation
timestamp `currentDate`, produce byte-identical output — so the output
varies only with the generation timestamp — *provided* every post
carries a deterministic `wp:post_id` source and a capture timestamp.  A
post without those falls back to `Date.now()`/`Math.random()` inside
`extractPostId` (and the wall clock inside `formatWordPressDate`), and
its `wp:post_id` differs between runs: see the counterexample. -/
theorem serializeRun_env_independent (posts : List Post) (currentDate : String)
    (h : ∀ p ∈ posts, wxrDeterministicPost p = true) (e1 e2 : RunEnv) :
    serializeRun e1 posts currentDate = serializeRun e2 posts currentDate := by
  unfold serializeRun
  exact createWxrFile_env_indep posts currentDate (firstPassAuthors posts) h e1 e2

def c1WitnessPost : Post :=
  { title := some "Hello", metadata := some { timestamp := some "20230330175424" } }

def c1EnvA : RunEnv := { nowMs := 0, rand := 0, nowDT := ⟨2020, 1, 2, 3, 4, 5⟩ }

def c1EnvB : RunEnv := { nowMs := 999, rand := 42, nowDT := ⟨2021, 6, 7, 8, 9, 10⟩ }

/-- Witness for `serializeRun_env_independent`. -/
theorem serializeRun_env_independent_witness :
    (∀ p ∈ [c1WitnessPost], wxrDeterministicPost p = true) ∧
    serializeRun c1EnvA [c1WitnessPost] "GEN" = serializeRun c1EnvB [c1WitnessPost] "GEN" :=
  ⟨by decide, serializeRun_env_independent [c1WitnessPost] "GEN" (by decide) c1EnvA c1EnvB⟩

/-- A filtered-in post (it has a title) with no capture timestamp and no
usable id. -/
def c1NoTsPost : Post := { title := some "Hello" }

def c1EnvC : RunEnv := { nowMs := 1, rand := 0, nowDT := ⟨2020, 1, 2, 3, 4, 5⟩ }

/-- Claim C1, counterexample: for a post with no capture timestamp and
no other deterministic id source, `extractPostId` — the function that
produces the emitted `wp:post_id` — evaluates to `Date.now() +
Math.floor(Math.random() * 1000)`, so two runs whose clock readings
differ emit different `wp:post_id` values (and hence different bytes)
for the same post. -/
theorem c1_counterexample :
    extractPostId c1EnvA c1NoTsPost ≠ extractPostId c1EnvC c1NoTsPost := by
  decide

/-! ## Claim C6: XML escaping of free text -/

/-- A post whose title contains markup-significant characters. -/
def c6Post : Post :=
  { title := some "Tom & Jerry <3>", metadata := some { timestamp := some "20230330175424" } }

/-- Claim C6 (code bug): `convertPostToWxr` interpolates the post title
into the `<title>` element raw — neither `escapeXml` nor `cdata` is
applied to it, although every other free-text field is wrapped — so for
a title containing `&`, `<` and `>` the emitted item contains them
unescaped, verbatim. -/
theorem convertPostToWxr_title_unescaped :
    (convertPostToWxr c1EnvA c6Post 0 []).map
      (fun r => containsSub "<title>Tom & Jerry <3></title>".data r.1.data) = some true := by
  decide

end LnexunRec
